import Mathlib

set_option linter.unusedVariables false
set_option linter.unreachableTactic false
set_option linter.unusedTactic false
set_option maxRecDepth 2000

/-!
Verification of the JSON Typedef library (schema.ts, validate.ts, rfc3339.ts).

The development shallowly embeds the repository's three components over a
generic JSON value tree:
  * the RFC 3339 timestamp checker (rfc3339.ts),
  * the schema shape checker and correctness checker (schema.ts),
  * the validation engine (validate.ts).
-/

namespace Jtd

/-- A parsed JSON-like value: null, boolean, number, string, array, or
string-keyed object.  Numbers are modelled as rationals (JS numbers on the
integer checks only use integrality and order, which rationals capture). -/
inductive JsonValue where
  | null
  | bool (b : Bool)
  | num (q : Rat)
  | str (s : String)
  | arr (elems : List JsonValue)
  | obj (fields : List (String × JsonValue))
deriving Repr

mutual

def decEqJsonValue (v1 v2 : JsonValue) : Decidable (v1 = v2) := by
  cases v1 <;> cases v2 <;>
    try { apply isFalse; intro h; injection h }
  case null.null => exact isTrue rfl
  case bool.bool a b | num.num a b | str.str a b =>
    exact match decEq a b with
    | isTrue h => isTrue (by rw [h])
    | isFalse _ => isFalse (by intro h; injection h; contradiction)
  case arr.arr xs ys =>
    exact match decEqJsonValueList xs ys with
    | isTrue h => isTrue (by rw [h])
    | isFalse _ => isFalse (by intro h; injection h; contradiction)
  case obj.obj xs ys =>
    exact match decEqJsonValueFields xs ys with
    | isTrue h => isTrue (by rw [h])
    | isFalse _ => isFalse (by intro h; injection h; contradiction)

def decEqJsonValueList (vs1 vs2 : List JsonValue) : Decidable (vs1 = vs2) :=
  match vs1, vs2 with
  | [], [] => isTrue rfl
  | _ :: _, [] | [], _ :: _ => isFalse (by intro; contradiction)
  | v1 :: rest1, v2 :: rest2 =>
    match decEqJsonValue v1 v2, decEqJsonValueList rest1 rest2 with
    | isTrue h1, isTrue h2 => isTrue (by rw [h1, h2])
    | isFalse _, _ | _, isFalse _ => isFalse (by intro h; injection h; contradiction)

def decEqJsonValueFields (fs1 fs2 : List (String × JsonValue)) : Decidable (fs1 = fs2) :=
  match fs1, fs2 with
  | [], [] => isTrue rfl
  | _ :: _, [] | [], _ :: _ => isFalse (by intro; contradiction)
  | (k1, v1) :: rest1, (k2, v2) :: rest2 =>
    match decEq k1 k2, decEqJsonValue v1 v2, decEqJsonValueFields rest1 rest2 with
    | isTrue h1, isTrue h2, isTrue h3 => isTrue (by rw [h1, h2, h3])
    | isFalse _, _, _ | _, isFalse _, _ | _, _, isFalse _ =>
      isFalse (by
        intro h
        injection h with h1 h2
        injection h1
        simp_all)

end

instance : DecidableEq JsonValue := decEqJsonValue

/-- First binding of a key in an object's field list; JS objects have unique
keys, so this is the JS member access `fields[key]` / `key in fields`. -/
def getField : List (String × JsonValue) → String → Option JsonValue
  | [], _ => none
  | (k, v) :: rest, key => if k = key then some v else getField rest key

/-- JS `key in obj` / `obj.key !== undefined`. -/
def keyPresent (fields : List (String × JsonValue)) (key : String) : Bool :=
  (getField fields key).isSome

/-- The field list of an object value (empty for non-objects). -/
def fieldsOf : JsonValue → List (String × JsonValue)
  | JsonValue.obj fields => fields
  | _ => []

/-! ## rfc3339.ts: the RFC 3339 timestamp checker

The source matches the anchored regular expression
`^(\d{4})-(\d{2})-(\d{2})[tT](\d{2}):(\d{2}):(\d{2})(\.\d+)?([zZ]|((\+|-)(\d{2}):(\d{2})))$`
and then range-checks the captured month, day, hour, minute and second.
The regex is embedded as a deterministic parser over the character list
(the pattern is unambiguous: the optional fraction starts with `.`, which
cannot begin the timezone alternative, and `\d+` is followed by a
non-digit). -/

/-- `\d`, i.e. the characters 0-9. -/
def isDigitChar (c : Char) : Bool := 48 ≤ c.toNat && c.toNat ≤ 57

/-- Match exactly `n` digits, returning their decimal value (the source's
`parseInt(matches[i], 10)` on the captured group) and the rest. -/
def digitsVal : Nat → Nat → List Char → Option (Nat × List Char)
  | 0, acc, cs => some (acc, cs)
  | n + 1, acc, c :: cs =>
      if isDigitChar c then digitsVal n (acc * 10 + (c.toNat - 48)) cs else none
  | _ + 1, _, [] => none

/-- Match one literal character. -/
def expectChar (c : Char) : List Char → Option (List Char)
  | x :: cs => if x = c then some cs else none
  | [] => none

/-- Match `[tT]`. -/
def expectT : List Char → Option (List Char)
  | x :: cs => if x = 'T' || x = 't' then some cs else none
  | [] => none

/-- Match the optional fractional seconds `(\.\d+)?` (greedy). -/
def skipFrac : List Char → Option (List Char)
  | '.' :: cs =>
      match cs with
      | c :: _ => if isDigitChar c then some (cs.dropWhile isDigitChar) else none
      | [] => none
  | cs => some cs

/-- Match the timezone alternative `[zZ]|((\+|-)(\d{2}):(\d{2}))`, anchored at
the end of the input. -/
def matchTZ : List Char → Bool
  | ['z'] => true
  | ['Z'] => true
  | c :: cs =>
      (c = '+' || c = '-') &&
      (match digitsVal 2 0 cs with
       | some (_, ':' :: cs2) =>
          (match digitsVal 2 0 cs2 with
           | some (_, []) => true
           | _ => false)
       | _ => false)
  | [] => false

/-- The whole regex match: on success returns the captured
(year, month, day, hour, minute, second). -/
def parseRFC3339 (s : String) : Option (Nat × Nat × Nat × Nat × Nat × Nat) := do
  let (year, cs) ← digitsVal 4 0 s.toList
  let cs ← expectChar '-' cs
  let (month, cs) ← digitsVal 2 0 cs
  let cs ← expectChar '-' cs
  let (day, cs) ← digitsVal 2 0 cs
  let cs ← expectT cs
  let (hour, cs) ← digitsVal 2 0 cs
  let cs ← expectChar ':' cs
  let (minute, cs) ← digitsVal 2 0 cs
  let cs ← expectChar ':' cs
  let (second, cs) ← digitsVal 2 0 cs
  let cs ← skipFrac cs
  if matchTZ cs then some (year, month, day, hour, minute, second) else none

/-- `isLeapYear` from rfc3339.ts. -/
def isLeapYear (n : Nat) : Bool := n % 4 == 0 && (n % 100 != 0 || n % 400 == 0)

/-- `MONTH_LENGTHS` from rfc3339.ts (1-indexed; February handled separately). -/
def MONTH_LENGTHS : List Nat := [0, 31, 0, 31, 30, 31, 30, 31, 31, 30, 31, 30, 31]

/-- `maxDay` from rfc3339.ts. -/
def maxDay (year month : Nat) : Nat :=
  if month == 2 then (if isLeapYear year then 29 else 28)
  else MONTH_LENGTHS.getD month 0

/-- `isRFC3339` from rfc3339.ts: regex match followed by the calendar and
clock range checks, in source order (a seconds value of 60 is permitted as a
leap second). -/
def isRFC3339 (s : String) : Bool :=
  match parseRFC3339 s with
  | none => false
  | some (year, month, day, hour, minute, second) =>
      if month > 12 then false
      else if day > maxDay year month then false
      else if hour > 23 then false
      else if minute > 59 then false
      else if second > 60 then false
      else true

/-! ## sizeOf lemmas used for termination of the recursive checkers -/

theorem JsonValue.one_le_sizeOf (v : JsonValue) : 1 ≤ sizeOf v := by
  cases v <;> simp

theorem getField_sizeOf_lt {fields : List (String × JsonValue)} {k : String} {v : JsonValue}
    (h : getField fields k = some v) : sizeOf v < sizeOf fields := by
  induction fields with
  | nil => simp [getField] at h
  | cons kv rest ih =>
    obtain ⟨k0, v0⟩ := kv
    simp only [getField] at h
    split at h
    · cases h; simp; omega
    · have := ih h; simp; omega

theorem getField_fieldsOf_sizeOf {v u : JsonValue} {k : String}
    (h : getField (fieldsOf v) k = some u) : sizeOf u + 1 < sizeOf v := by
  cases v
  case obj fields =>
    have h2 := getField_sizeOf_lt h
    simp only [fieldsOf] at h2
    simp only [JsonValue.obj.sizeOf_spec]
    omega
  all_goals simp [fieldsOf, getField] at h

theorem sizeOf_lt_of_mem_values {fields : List (String × JsonValue)} {kv : String × JsonValue}
    (h : kv ∈ fields) : sizeOf kv.2 < sizeOf fields := by
  induction fields with
  | nil => cases h
  | cons kv0 rest ih =>
    rcases List.mem_cons.mp h with h1 | h1
    · subst h1
      obtain ⟨k0, v0⟩ := kv
      simp; omega
    · have := ih h1; simp; omega

/-! ## schema.ts: the shape checker `isSchema`

The source destructures the fourteen known keywords out of the object,
computes the ten-element presence signature, looks it up in `VALID_FORMS`,
shape-checks each present keyword's value, and finally rejects when any
unrecognized key remains.  JS objects have unique keys, so checking each
field against its keyword's shape requirement (`isSchemaFields`) is the
destructure-then-check of the source. -/

/-- `VALID_TYPES` from schema.ts. -/
def VALID_TYPES : List String :=
  ["boolean", "float32", "float64", "int8", "uint8", "int16", "uint16",
   "int32", "uint32", "string", "timestamp"]

/-- The ten form-determining keywords, in the order of the signature rows. -/
def FORM_KEYWORDS : List String :=
  ["ref", "type", "enum", "elements", "properties", "optionalProperties",
   "additionalProperties", "values", "discriminator", "mapping"]

/-- The fourteen known keywords. -/
def KNOWN_KEYWORDS : List String :=
  ["definitions", "nullable", "metadata"] ++ FORM_KEYWORDS

/-- `VALID_FORMS` from schema.ts: the 13 legal presence signatures. -/
def VALID_FORMS : List (List Bool) :=
  [[false, false, false, false, false, false, false, false, false, false],
   [true, false, false, false, false, false, false, false, false, false],
   [false, true, false, false, false, false, false, false, false, false],
   [false, false, true, false, false, false, false, false, false, false],
   [false, false, false, true, false, false, false, false, false, false],
   [false, false, false, false, true, false, false, false, false, false],
   [false, false, false, false, false, true, false, false, false, false],
   [false, false, false, false, true, true, false, false, false, false],
   [false, false, false, false, true, false, true, false, false, false],
   [false, false, false, false, false, true, true, false, false, false],
   [false, false, false, false, true, true, true, false, false, false],
   [false, false, false, false, false, false, false, true, false, false],
   [false, false, false, false, false, false, false, false, true, true]]

/-- The `formSignature` array from `isSchema`. -/
def formSignature (fields : List (String × JsonValue)) : List Bool :=
  FORM_KEYWORDS.map (fun k => keyPresent fields k)

/-- Is the value a boolean? (shape of `nullable` / `additionalProperties`). -/
def isBoolVal : JsonValue → Bool
  | JsonValue.bool _ => true
  | _ => false

/-- Is the value a string? (shape of `ref` / `discriminator`). -/
def isStrVal : JsonValue → Bool
  | JsonValue.str _ => true
  | _ => false

/-- Is the value a string-keyed map? (shape of `metadata`). -/
def isObjVal : JsonValue → Bool
  | JsonValue.obj _ => true
  | _ => false

/-- Is the value one of the eleven type names? (shape of `type`). -/
def isTypeNameVal : JsonValue → Bool
  | JsonValue.str t => VALID_TYPES.contains t
  | _ => false

/-- Is the value an array of strings? (shape of `enum`). -/
def isStrArrVal : JsonValue → Bool
  | JsonValue.arr elems => elems.all isStrVal
  | _ => false

/-- Step 3 of the shape checker: the presence signature is a row of the
table. -/
def isSchemaSignatureOk (fields : List (String × JsonValue)) : Bool :=
  VALID_FORMS.contains (formSignature fields)

/-- Step 5 of the shape checker: no unrecognized key remains. -/
def isSchemaKnownKeys (fields : List (String × JsonValue)) : Bool :=
  fields.all (fun kv => KNOWN_KEYWORDS.contains kv.1)

/-- The shape `isSchema` requires of a known keyword's value, named.  The
fourteen keyword branches of the source collapse to seven shapes. -/
inductive KeywordShape where
  | schemaMap
  | boolean
  | anyMap
  | string
  | typeName
  | stringArray
  | schema
  | other
deriving DecidableEq

/-- The keyword-to-shape table of `isSchema`, one branch per destructured
keyword of the source, in source order:  `definitions` / `properties` /
`optionalProperties` / `mapping` are string-keyed maps of schemas,
`nullable` / `additionalProperties` booleans, `metadata` any map, `ref` /
`discriminator` strings, `type` one of the eleven type names, `enum` an
array of strings, `elements` / `values` schemas.  Unknown keys pass here
(they are rejected by the known-keyword check in `isSchema`). -/
def keywordShape (k : String) : KeywordShape :=
  if k = "definitions" then KeywordShape.schemaMap
  else if k = "nullable" then KeywordShape.boolean
  else if k = "metadata" then KeywordShape.anyMap
  else if k = "ref" then KeywordShape.string
  else if k = "type" then KeywordShape.typeName
  else if k = "enum" then KeywordShape.stringArray
  else if k = "elements" then KeywordShape.schema
  else if k = "properties" then KeywordShape.schemaMap
  else if k = "optionalProperties" then KeywordShape.schemaMap
  else if k = "additionalProperties" then KeywordShape.boolean
  else if k = "values" then KeywordShape.schema
  else if k = "discriminator" then KeywordShape.string
  else if k = "mapping" then KeywordShape.schemaMap
  else KeywordShape.other

mutual

/-- `isSchema` from schema.ts.  Non-objects (including arrays and null) are
rejected; otherwise the presence signature must be a `VALID_FORMS` row, every
present keyword's value must have the right shape (recursing into
sub-schemas), and no key outside the fourteen known keywords may remain. -/
def isSchema : JsonValue → Bool
  | JsonValue.obj fields =>
      isSchemaSignatureOk fields &&
      isSchemaFields fields &&
      isSchemaKnownKeys fields
  | _ => false
termination_by v => (sizeOf v, 3)

/-- Shape-check every field of the object against its keyword; a JS
object's keys are unique, so this visits exactly the destructured bindings
of the source. -/
def isSchemaFields : List (String × JsonValue) → Bool
  | [] => true
  | (k, v) :: rest => isSchemaKeyword k v && isSchemaFields rest
termination_by l => (sizeOf l, 1)

/-- The shape `isSchema` requires of one keyword's value:
`definitions` / `properties` / `optionalProperties` / `mapping` are
string-keyed maps of schemas, `nullable` / `additionalProperties` booleans,
`metadata` any map, `ref` / `discriminator` strings, `type` one of the
eleven type names, `enum` an array of strings, `elements` / `values`
schemas.  Unknown keys pass here (they are rejected by the known-keyword
check in `isSchema`). -/
def isSchemaKeyword (k : String) (v : JsonValue) : Bool :=
  match keywordShape k with
  | KeywordShape.schemaMap => isObjOfSchemas v
  | KeywordShape.boolean => isBoolVal v
  | KeywordShape.anyMap => isObjVal v
  | KeywordShape.string => isStrVal v
  | KeywordShape.typeName => isTypeNameVal v
  | KeywordShape.stringArray => isStrArrVal v
  | KeywordShape.schema => isSchema v
  | KeywordShape.other => true
termination_by (sizeOf v, 5)

/-- Is the value a string-keyed map whose every value is a schema? (shape
of `definitions` / `properties` / `optionalProperties` / `mapping`). -/
def isObjOfSchemas : JsonValue → Bool
  | JsonValue.obj entries => isSchemaEntries entries
  | _ => false
termination_by v => (sizeOf v, 4)

/-- Every value of a keyword-map is a schema. -/
def isSchemaEntries : List (String × JsonValue) → Bool
  | [] => true
  | (_, v) :: rest => isSchema v && isSchemaEntries rest
termination_by l => (sizeOf l, 0)

end

/-! ## schema.ts: the eight form discrimination predicates -/

/-- `isEmptyForm`: after destructuring `definitions`, `nullable` and
`metadata` away, nothing remains. -/
def isEmptyForm (schema : JsonValue) : Bool :=
  (fieldsOf schema).all (fun kv =>
    kv.1 == "definitions" || kv.1 == "nullable" || kv.1 == "metadata")

/-- `isRefForm`: `"ref" in schema`. -/
def isRefForm (schema : JsonValue) : Bool := keyPresent (fieldsOf schema) "ref"

/-- `isTypeForm`: `"type" in schema`. -/
def isTypeForm (schema : JsonValue) : Bool := keyPresent (fieldsOf schema) "type"

/-- `isEnumForm`: `"enum" in schema`. -/
def isEnumForm (schema : JsonValue) : Bool := keyPresent (fieldsOf schema) "enum"

/-- `isElementsForm`: `"elements" in schema`. -/
def isElementsForm (schema : JsonValue) : Bool := keyPresent (fieldsOf schema) "elements"

/-- `isPropertiesForm`: `"properties" in schema || "optionalProperties" in schema`. -/
def isPropertiesForm (schema : JsonValue) : Bool :=
  keyPresent (fieldsOf schema) "properties" || keyPresent (fieldsOf schema) "optionalProperties"

/-- `isValuesForm`: `"values" in schema`. -/
def isValuesForm (schema : JsonValue) : Bool := keyPresent (fieldsOf schema) "values"

/-- `isDiscriminatorForm`: `"discriminator" in schema`. -/
def isDiscriminatorForm (schema : JsonValue) : Bool :=
  keyPresent (fieldsOf schema) "discriminator"

/-- The eight form predicates, in the dispatch order of schema.ts. -/
def formPreds (v : JsonValue) : List Bool :=
  [isEmptyForm v, isRefForm v, isTypeForm v, isEnumForm v, isElementsForm v,
   isPropertiesForm v, isValuesForm v, isDiscriminatorForm v]

/-! ## Keyword accessors shared by `isValidSchema` and `validate`

A valid schema stores an object under `definitions` / `properties` /
`optionalProperties` / `mapping`, a string under `ref` / `type` /
`discriminator`, and a boolean under `nullable`.  The accessors return the
payload, with a default for the absent (or, on inputs that are not
schema-shaped, ill-typed) case, mirroring the source's `x || {}` and
undefined-propagation. -/

/-- The entries of the object stored under key `k` (`schema.k || {}`). -/
def objEntriesOf (v : JsonValue) (k : String) : List (String × JsonValue) :=
  match getField (fieldsOf v) k with
  | some (JsonValue.obj entries) => entries
  | _ => []

/-- `schema.properties || {}`. -/
def propsOf (v : JsonValue) : List (String × JsonValue) := objEntriesOf v "properties"

/-- `schema.optionalProperties || {}`. -/
def optsOf (v : JsonValue) : List (String × JsonValue) := objEntriesOf v "optionalProperties"

/-- `schema.mapping` (as entries). -/
def mappingOf (v : JsonValue) : List (String × JsonValue) := objEntriesOf v "mapping"

/-- `root.definitions || {}` (as entries). -/
def rootDefs (root : JsonValue) : List (String × JsonValue) := objEntriesOf root "definitions"

/-- The string stored under key `k` (empty for the unreachable ill-typed case). -/
def strFieldOf (v : JsonValue) (k : String) : String :=
  match getField (fieldsOf v) k with
  | some (JsonValue.str s) => s
  | _ => ""

/-- `schema.discriminator`. -/
def discriminatorOf (v : JsonValue) : String := strFieldOf v "discriminator"

/-- `schema.nullable` (a boolean on schema-shaped input; its truthiness). -/
def nullableOf (v : JsonValue) : Bool :=
  match getField (fieldsOf v) "nullable" with
  | some (JsonValue.bool b) => b
  | _ => false

theorem objEntriesOf_sizeOf_le (v : JsonValue) (k : String) :
    sizeOf (objEntriesOf v k) ≤ sizeOf v := by
  unfold objEntriesOf
  split
  · next entries h =>
      have h2 := getField_fieldsOf_sizeOf h
      simp at h2 ⊢
      omega
  · have := JsonValue.one_le_sizeOf v
    simp
    omega

/-! ## schema.ts: the correctness checker `isValidSchema`

The source threads an implicit root (defaulting to the schema itself) and
checks, in order: `definitions` legal only on the root node (recursing into
each definition), `ref` resolvable in the root's definitions, `enum`
non-empty and duplicate-free, then returns the recursive check of
`elements` when present, then Properties-form recursion plus disjointness,
then returns the recursive check of `values` when present, then the
Discriminator-form constraints on every `mapping` entry.

The source compares the node against the root with JS reference identity
(`root !== schema`); structural equality models it faithfully because every
recursively visited node is a strict subterm of the root, so it can be
structurally equal to the whole root only at the top-level call. -/

mutual

/-- `isValidSchema` from schema.ts (two-argument form; the source defaults
`root` to `schema` at the outermost call). -/
def isValidSchema (schema root : JsonValue) : Bool :=
  (match hdefs : getField (fieldsOf schema) "definitions" with
   | some (JsonValue.obj defs) => (schema == root) && isValidSchemaEntries defs root
   | some _ => schema == root
   | none => true) &&
  (if isRefForm schema then
     match getField (fieldsOf schema) "ref" with
     | some (JsonValue.str r) => keyPresent (rootDefs root) r
     | _ => true
   else true) &&
  (if isEnumForm schema then
     match getField (fieldsOf schema) "enum" with
     | some (JsonValue.arr elems) => !elems.isEmpty && (elems.dedup.length == elems.length)
     | _ => true
   else true) &&
  (match helems : getField (fieldsOf schema) "elements" with
   | some e => isValidSchema e root
   | none =>
     (if isPropertiesForm schema then
        isValidSchemaEntries (propsOf schema) root &&
        isValidSchemaEntries (optsOf schema) root &&
        (propsOf schema).all (fun kv => !keyPresent (optsOf schema) kv.1)
      else true) &&
     (match hvals : getField (fieldsOf schema) "values" with
      | some w => isValidSchema w root
      | none =>
        if isDiscriminatorForm schema then
          isValidMapping (discriminatorOf schema) (mappingOf schema) root
        else true))
termination_by (sizeOf schema, 1)
decreasing_by
  · have h2 := getField_fieldsOf_sizeOf hdefs
    apply Prod.Lex.left
    simp at h2
    omega
  · have h2 := getField_fieldsOf_sizeOf helems
    apply Prod.Lex.left
    omega
  · have h2 := objEntriesOf_sizeOf_le schema "properties"
    unfold propsOf
    rcases Nat.lt_or_ge (sizeOf (objEntriesOf schema "properties")) (sizeOf schema) with h | h
    · exact Prod.Lex.left _ _ h
    · have h3 : sizeOf (objEntriesOf schema "properties") = sizeOf schema := by omega
      rw [h3]
      exact Prod.Lex.right _ (by omega)
  · have h2 := objEntriesOf_sizeOf_le schema "optionalProperties"
    unfold optsOf
    rcases Nat.lt_or_ge (sizeOf (objEntriesOf schema "optionalProperties")) (sizeOf schema) with h | h
    · exact Prod.Lex.left _ _ h
    · have h3 : sizeOf (objEntriesOf schema "optionalProperties") = sizeOf schema := by omega
      rw [h3]
      exact Prod.Lex.right _ (by omega)
  · have h2 := getField_fieldsOf_sizeOf hvals
    apply Prod.Lex.left
    omega
  · have h2 := objEntriesOf_sizeOf_le schema "mapping"
    unfold mappingOf
    rcases Nat.lt_or_ge (sizeOf (objEntriesOf schema "mapping")) (sizeOf schema) with h | h
    · exact Prod.Lex.left _ _ h
    · have h3 : sizeOf (objEntriesOf schema "mapping") = sizeOf schema := by omega
      rw [h3]
      exact Prod.Lex.right _ (by omega)

/-- Check every schema of a keyword-map against the root (the loops over
`Object.values(schema.definitions)`, `schema.properties`, ...). -/
def isValidSchemaEntries (entries : List (String × JsonValue)) (root : JsonValue) : Bool :=
  match entries with
  | [] => true
  | (_, v) :: rest => isValidSchema v root && isValidSchemaEntries rest root
termination_by (sizeOf entries, 0)

/-- The Discriminator-form loop: every `mapping` entry is itself valid, of
the Properties form, not nullable, and does not declare the discriminator
name among its own (required or optional) property names. -/
def isValidMapping (disc : String) (entries : List (String × JsonValue)) (root : JsonValue) : Bool :=
  match entries with
  | [] => true
  | (_, sub) :: rest =>
      isValidSchema sub root && isPropertiesForm sub && !nullableOf sub &&
      !keyPresent (propsOf sub) disc && !keyPresent (optsOf sub) disc &&
      isValidMapping disc rest root
termination_by (sizeOf entries, 0)

end

/-! ## validate.ts: the validation engine

The engine mutates one `ValidationState` record and signals two conditions
by throwing: `MaxDepthExceededError` (re-thrown to the caller of `validate`)
and `MaxErrorsReachedError` (caught by `validate`).  The embedding threads
the state explicitly and models the throws with `Except`.

With `maxDepth = 0` the source follows `ref`s without bound and can
overflow the stack on a cyclic schema; the embedding therefore gives each
call a budget (`fuel`) of `ref` indirections it may still follow and
reports `outOfFuel` when the walk would follow more nested refs than the
budget, making the source's potential nontermination observable.  All
other recursion is structural and consumes no fuel.

The JS exceptions carry no data; here they carry the validation state at
the throw point, of which the caller of `validate` observes only the
collected `errors` of a `MaxErrorsReachedError` (see `validate`).

The source's timestamp case delegates to the external moment library
(`moment(instance, moment.ISO_8601).isValid()`), an external dependency
that is not part of this repository; the engine is therefore parameterized
by the timestamp acceptance predicate `tsCheck`. -/

/-- One recorded error: snapshots of the instance-path and (current ref
frame's) schema-path token stacks. -/
structure ValidationError where
  instancePath : List String
  schemaPath : List String
deriving DecidableEq, Repr

/-- `ValidationConfig` from validate.ts (defaults are zero = unbounded). -/
structure ValidationConfig where
  maxDepth : Nat
  maxErrors : Nat
deriving DecidableEq, Repr

/-- `ValidationState` from validate.ts.  `schemaTokens` is the stack of
per-`ref` schema-token frames, kept innermost-first (the source keeps the
innermost frame last in a JS array). -/
structure ValidationState where
  errors : List ValidationError
  instanceTokens : List String
  schemaTokens : List (List String)
  root : JsonValue
  config : ValidationConfig
deriving DecidableEq, Repr

/-- The outcomes the engine signals by throwing. -/
inductive Halt where
  | depth (s : ValidationState)
  | errs (s : ValidationState)
  | outOfFuel (s : ValidationState)
deriving DecidableEq, Repr

/-- `pushInstanceToken`. -/
def pushInstanceToken (state : ValidationState) (token : String) : ValidationState :=
  { state with instanceTokens := state.instanceTokens ++ [token] }

/-- `popInstanceToken`. -/
def popInstanceToken (state : ValidationState) : ValidationState :=
  { state with instanceTokens := state.instanceTokens.dropLast }

/-- The current (innermost) ref frame,
`state.schemaTokens[state.schemaTokens.length - 1]`. -/
def currentFrame (state : ValidationState) : List String :=
  state.schemaTokens.headD []

/-- `pushSchemaToken`: append to the innermost frame (no frame exists only
in states unreachable from `validate`). -/
def pushSchemaToken (state : ValidationState) (token : String) : ValidationState :=
  { state with schemaTokens :=
      match state.schemaTokens with
      | [] => []
      | frame :: rest => (frame ++ [token]) :: rest }

/-- `popSchemaToken`: drop the last token of the innermost frame. -/
def popSchemaToken (state : ValidationState) : ValidationState :=
  { state with schemaTokens :=
      match state.schemaTokens with
      | [] => []
      | frame :: rest => frame.dropLast :: rest }

/-- Push of a whole ref frame (`state.schemaTokens.push([...])`). -/
def pushFrame (state : ValidationState) (frame : List String) : ValidationState :=
  { state with schemaTokens := frame :: state.schemaTokens }

/-- Pop of a whole ref frame. -/
def popFrame (state : ValidationState) : ValidationState :=
  { state with schemaTokens := state.schemaTokens.tail }

/-- `pushError`: record a snapshot error; when the count reaches
`maxErrors` throw `MaxErrorsReachedError` (with `maxErrors = 0` this never
fires, the fresh count being positive). -/
def pushError (state : ValidationState) : Except Halt ValidationState :=
  let st := { state with errors :=
                state.errors ++ [⟨state.instanceTokens, currentFrame state⟩] }
  if st.errors.length == st.config.maxErrors then Except.error (Halt.errs st)
  else Except.ok st

/-- `validateInt`: integer-valued number within the closed range. -/
def validateInt (state : ValidationState) (inst : JsonValue) (lo hi : Int) :
    Except Halt ValidationState :=
  match inst with
  | JsonValue.num q =>
      if q.den == 1 && decide (lo ≤ q.num) && decide (q.num ≤ hi) then Except.ok state
      else pushError state
  | _ => pushError state

/-- `schema.additionalProperties !== true` guards the unexpected-key check
of the Properties form; absent (or, unreachable on valid schemas,
non-boolean) counts as not-true. -/
def additionalOf (v : JsonValue) : Bool :=
  match getField (fieldsOf v) "additionalProperties" with
  | some (JsonValue.bool b) => b
  | _ => false

/-- `state.root.definitions![schema.ref]`; under the `isValidSchema`
precondition the key is present, the fallback for the unreachable miss is
`null`. -/
def defLookup (root : JsonValue) (refName : String) : JsonValue :=
  (getField (rootDefs root) refName).getD JsonValue.null

/-- The `additionalProperties` loop of the Properties form: flag every
instance key that is neither a required nor an optional property name nor
equal to the parent discriminator tag. -/
def checkAdditional (props opts : List (String × JsonValue)) (parentTag : Option String) :
    List (String × JsonValue) → ValidationState → Except Halt ValidationState
  | [], st => Except.ok st
  | (name, _) :: rest, st =>
      if !keyPresent props name && !keyPresent opts name && !(some name == parentTag) then
        match pushError (pushInstanceToken st name) with
        | Except.ok st2 => checkAdditional props opts parentTag rest (popInstanceToken st2)
        | Except.error h => Except.error h
      else checkAdditional props opts parentTag rest st

/-- Run a branch's trailing `popSchemaToken`: on a thrown error the pop is
skipped (the exception propagates before the pop statement runs). -/
def popWrap (res : Except Halt ValidationState) : Except Halt ValidationState :=
  match res with
  | Except.ok st => Except.ok (popSchemaToken st)
  | Except.error h => Except.error h

/-- Trailing `popInstanceToken` then `popSchemaToken` (the discriminator
error paths), skipped on a thrown error. -/
def popWrapInstSchema (res : Except Halt ValidationState) : Except Halt ValidationState :=
  match res with
  | Except.ok st => Except.ok (popSchemaToken (popInstanceToken st))
  | Except.error h => Except.error h

/-- Trailing `state.schemaTokens.pop()` after the recursive ref call,
skipped on a thrown error. -/
def popFrameWrap (res : Except Halt ValidationState) : Except Halt ValidationState :=
  match res with
  | Except.ok st => Except.ok (popFrame st)
  | Except.error h => Except.error h

/-- The `switch (schema.type)` of the Type form, run between the
`pushSchemaToken "type"` and its pop: `boolean` wants a native boolean,
`float32`/`float64` any number, the intN/uintN family an integer-valued
number in the literal bit-width range, `string` a native string, and
`timestamp` a string accepted by the timestamp predicate.  (The source has
no default case: an unknown type name, unreachable on valid schemas, checks
nothing.) -/
def typeSwitch (tsCheck : String → Bool) (st : ValidationState) (t : String)
    (inst : JsonValue) : Except Halt ValidationState :=
  match t with
  | "boolean" =>
      match inst with
      | JsonValue.bool _ => Except.ok st
      | _ => pushError st
  | "float32" =>
      match inst with
      | JsonValue.num _ => Except.ok st
      | _ => pushError st
  | "float64" =>
      match inst with
      | JsonValue.num _ => Except.ok st
      | _ => pushError st
  | "int8" => validateInt st inst (-128) 127
  | "uint8" => validateInt st inst 0 255
  | "int16" => validateInt st inst (-32768) 32767
  | "uint16" => validateInt st inst 0 65535
  | "int32" => validateInt st inst (-2147483648) 2147483647
  | "uint32" => validateInt st inst 0 4294967295
  | "string" =>
      match inst with
      | JsonValue.str _ => Except.ok st
      | _ => pushError st
  | "timestamp" =>
      match inst with
      | JsonValue.str s => if tsCheck s then Except.ok st else pushError st
      | _ => pushError st
  | _ => Except.ok st

/-- The Enum form body, run between the `pushSchemaToken "enum"` and its
pop: the instance must be a string contained in the `enum` array. -/
def enumCheck (st : ValidationState) (schema inst : JsonValue) : Except Halt ValidationState :=
  match inst with
  | JsonValue.str s =>
      if (match getField (fieldsOf schema) "enum" with
          | some (JsonValue.arr elems) => elems.contains (JsonValue.str s)
          | _ => false) then Except.ok st
      else pushError st
  | _ => pushError st

mutual

/-- `validateWithState` from validate.ts: nullable short-circuit, then
dispatch on the form predicates in source order (the per-form branch bodies
live in the sibling dispatch functions below). -/
def validateWithState (tsCheck : String → Bool) (fuel : Nat) (state : ValidationState)
    (schema inst : JsonValue) (parentTag : Option String) : Except Halt ValidationState :=
  if nullableOf schema && inst == JsonValue.null then Except.ok state
  else if isRefForm schema then
    if state.schemaTokens.length == state.config.maxDepth then
      Except.error (Halt.depth state)
    else
      match fuel with
      | 0 => Except.error (Halt.outOfFuel state)
      | fuel' + 1 =>
          popFrameWrap (validateWithState tsCheck fuel'
            (pushFrame state ["definitions", strFieldOf schema "ref"])
            (defLookup state.root (strFieldOf schema "ref")) inst none)
  else if isTypeForm schema then
    popWrap (typeSwitch tsCheck (pushSchemaToken state "type") (strFieldOf schema "type") inst)
  else if isEnumForm schema then
    popWrap (enumCheck (pushSchemaToken state "enum") schema inst)
  else if isElementsForm schema then
    elementsDispatch tsCheck fuel state schema inst
  else if isPropertiesForm schema then
    propsDispatch tsCheck fuel state schema inst parentTag
  else if isValuesForm schema then
    valuesDispatch tsCheck fuel state schema inst
  else if isDiscriminatorForm schema then
    discDispatch tsCheck fuel state schema inst
  else Except.ok state
termination_by (fuel, sizeOf schema, 2)
decreasing_by
  all_goals
    first
    | (apply Prod.Lex.left
       omega)
    | (apply Prod.Lex.right
       apply Prod.Lex.right
       omega)

/-- The Elements-form branch: the instance must be an array, each element
validated against `schema.elements`; on a non-array a single error is
recorded.  The `pushSchemaToken "elements"` / pop bracket the branch. -/
def elementsDispatch (tsCheck : String → Bool) (fuel : Nat) (state : ValidationState)
    (schema inst : JsonValue) : Except Halt ValidationState :=
  match helems : getField (fieldsOf schema) "elements" with
  | some elemSchema =>
      popWrap (match inst with
        | JsonValue.arr elems =>
            validateElements tsCheck fuel (pushSchemaToken state "elements") elemSchema elems 0
        | _ => pushError (pushSchemaToken state "elements"))
  | none => Except.ok state
termination_by (fuel, sizeOf schema, 1)
decreasing_by
  apply Prod.Lex.right
  apply Prod.Lex.left
  have h2 := getField_fieldsOf_sizeOf helems
  omega

/-- The Properties-form branch: on an object instance run the required
properties, then the optional properties, then (unless
`additionalProperties` is true) flag unexpected keys; on a non-object
record one error under `properties` or `optionalProperties`. -/
def propsDispatch (tsCheck : String → Bool) (fuel : Nat) (state : ValidationState)
    (schema inst : JsonValue) (parentTag : Option String) : Except Halt ValidationState :=
  match inst with
  | JsonValue.obj instFields =>
      (match (match hprops : getField (fieldsOf schema) "properties" with
        | some (JsonValue.obj props) =>
            popWrap (validateProps tsCheck fuel (pushSchemaToken state "properties") props instFields)
        | _ => Except.ok state) with
       | Except.error h => Except.error h
       | Except.ok stA =>
          (match (match hopts : getField (fieldsOf schema) "optionalProperties" with
            | some (JsonValue.obj opts) =>
                popWrap (validateOptProps tsCheck fuel
                  (pushSchemaToken stA "optionalProperties") opts instFields)
            | _ => Except.ok stA) with
           | Except.error h => Except.error h
           | Except.ok stB =>
              if additionalOf schema then Except.ok stB
              else checkAdditional (propsOf schema) (optsOf schema) parentTag instFields stB))
  | _ =>
      popWrap (pushError (pushSchemaToken state
        (if keyPresent (fieldsOf schema) "properties" then "properties"
         else "optionalProperties")))
termination_by (fuel, sizeOf schema, 1)
decreasing_by
  · apply Prod.Lex.right
    apply Prod.Lex.left
    have h2 := getField_fieldsOf_sizeOf hprops
    simp at h2
    omega
  · apply Prod.Lex.right
    apply Prod.Lex.left
    have h2 := getField_fieldsOf_sizeOf hopts
    simp at h2
    omega

/-- The Values-form branch: the instance must be an object, every entry
value validated against `schema.values`; on a non-object a single error is
recorded. -/
def valuesDispatch (tsCheck : String → Bool) (fuel : Nat) (state : ValidationState)
    (schema inst : JsonValue) : Except Halt ValidationState :=
  match hvals : getField (fieldsOf schema) "values" with
  | some valSchema =>
      popWrap (match inst with
        | JsonValue.obj instFields =>
            validateValues tsCheck fuel (pushSchemaToken state "values") valSchema instFields
        | _ => pushError (pushSchemaToken state "values"))
  | none => Except.ok state
termination_by (fuel, sizeOf schema, 1)
decreasing_by
  apply Prod.Lex.right
  apply Prod.Lex.left
  have h2 := getField_fieldsOf_sizeOf hvals
  omega

/-- The Discriminator-form branch: the instance must be an object carrying
the discriminator field as a string tag known to `mapping`; the tagged
sub-schema then validates the same instance with the discriminator name as
the parent-tag exception.  The error paths record a single error under
`discriminator` or `mapping`. -/
def discDispatch (tsCheck : String → Bool) (fuel : Nat) (state : ValidationState)
    (schema inst : JsonValue) : Except Halt ValidationState :=
  match inst with
  | JsonValue.obj instFields =>
      (match getField instFields (discriminatorOf schema) with
       | some (JsonValue.str tag) =>
          (match hmap : getField (mappingOf schema) tag with
           | some subSchema =>
              popWrap (popWrap (validateWithState tsCheck fuel
                (pushSchemaToken (pushSchemaToken state "mapping") tag)
                subSchema inst (some (discriminatorOf schema))))
           | none =>
              popWrapInstSchema (pushError (pushInstanceToken
                (pushSchemaToken state "mapping") (discriminatorOf schema))))
       | some _ =>
          popWrapInstSchema (pushError (pushInstanceToken
            (pushSchemaToken state "discriminator") (discriminatorOf schema)))
       | none => popWrap (pushError (pushSchemaToken state "discriminator")))
  | _ => popWrap (pushError (pushSchemaToken state "discriminator"))
termination_by (fuel, sizeOf schema, 1)
decreasing_by
  apply Prod.Lex.right
  apply Prod.Lex.left
  have h2 := getField_sizeOf_lt hmap
  have h3 := objEntriesOf_sizeOf_le schema "mapping"
  unfold mappingOf at h2
  omega

/-- The Elements-form loop: validate each element against the sub-schema at
instance token = stringified index. -/
def validateElements (tsCheck : String → Bool) (fuel : Nat) (state : ValidationState)
    (elemSchema : JsonValue) (elems : List JsonValue) (idx : Nat) :
    Except Halt ValidationState :=
  match elems with
  | [] => Except.ok state
  | e :: rest =>
      match validateWithState tsCheck fuel (pushInstanceToken state (toString idx))
              elemSchema e none with
      | Except.ok st2 =>
          validateElements tsCheck fuel (popInstanceToken st2) elemSchema rest (idx + 1)
      | Except.error h => Except.error h
termination_by (fuel, sizeOf elemSchema + 1, sizeOf elems)
decreasing_by
  all_goals
    apply Prod.Lex.right
    first
    | (apply Prod.Lex.left
       omega)
    | (apply Prod.Lex.right
       simp <;> omega)

/-- The required-properties loop: error when absent, else recurse. -/
def validateProps (tsCheck : String → Bool) (fuel : Nat) (state : ValidationState)
    (entries instFields : List (String × JsonValue)) : Except Halt ValidationState :=
  match entries with
  | [] => Except.ok state
  | (name, subSchema) :: rest =>
      (match (match getField instFields name with
        | some v =>
            (match validateWithState tsCheck fuel
                    (pushInstanceToken (pushSchemaToken state name) name) subSchema v none with
             | Except.ok st3 => Except.ok (popInstanceToken st3)
             | Except.error h => Except.error h)
        | none => pushError (pushSchemaToken state name)) with
       | Except.ok st4 => validateProps tsCheck fuel (popSchemaToken st4) rest instFields
       | Except.error h => Except.error h)
termination_by (fuel, sizeOf entries, 2)
decreasing_by
  all_goals
    apply Prod.Lex.right
    apply Prod.Lex.left
    simp <;> omega

/-- The optional-properties loop: recurse only when present. -/
def validateOptProps (tsCheck : String → Bool) (fuel : Nat) (state : ValidationState)
    (entries instFields : List (String × JsonValue)) : Except Halt ValidationState :=
  match entries with
  | [] => Except.ok state
  | (name, subSchema) :: rest =>
      (match (match getField instFields name with
        | some v =>
            (match validateWithState tsCheck fuel
                    (pushInstanceToken (pushSchemaToken state name) name) subSchema v none with
             | Except.ok st3 => Except.ok (popInstanceToken st3)
             | Except.error h => Except.error h)
        | none => Except.ok (pushSchemaToken state name)) with
       | Except.ok st4 => validateOptProps tsCheck fuel (popSchemaToken st4) rest instFields
       | Except.error h => Except.error h)
termination_by (fuel, sizeOf entries, 2)
decreasing_by
  all_goals
    apply Prod.Lex.right
    apply Prod.Lex.left
    simp <;> omega

/-- The Values-form loop: validate every entry value against the single
sub-schema at instance token = the map key. -/
def validateValues (tsCheck : String → Bool) (fuel : Nat) (state : ValidationState)
    (valSchema : JsonValue) (instEntries : List (String × JsonValue)) :
    Except Halt ValidationState :=
  match instEntries with
  | [] => Except.ok state
  | (name, v) :: rest =>
      match validateWithState tsCheck fuel (pushInstanceToken state name) valSchema v none with
      | Except.ok st2 => validateValues tsCheck fuel (popInstanceToken st2) valSchema rest
      | Except.error h => Except.error h
termination_by (fuel, sizeOf valSchema + 1, sizeOf instEntries)
decreasing_by
  all_goals
    apply Prod.Lex.right
    first
    | (apply Prod.Lex.left
       omega)
    | (apply Prod.Lex.right
       simp <;> omega)

end

deriving instance DecidableEq for Except

/-- The failures `validate` can raise to its caller: the re-thrown
`MaxDepthExceededError`, or (embedding only) exhaustion of the ref budget
standing for the source's unbounded recursion. -/
inductive VFail where
  | depth
  | outOfFuel
deriving DecidableEq, Repr

/-- `validate` from validate.ts: fresh state (no errors, no instance
tokens, one empty schema-token frame, the schema itself as root), run the
walk, catch `MaxErrorsReachedError` returning the collected errors,
re-throw `MaxDepthExceededError`. -/
def validate (tsCheck : String → Bool) (config : ValidationConfig) (fuel : Nat)
    (schema inst : JsonValue) : Except VFail (List ValidationError) :=
  let state : ValidationState := ⟨[], [], [[]], schema, config⟩
  match validateWithState tsCheck fuel state schema inst none with
  | Except.ok s => Except.ok s.errors
  | Except.error (Halt.errs s) => Except.ok s.errors
  | Except.error (Halt.depth _) => Except.error VFail.depth
  | Except.error (Halt.outOfFuel _) => Except.error VFail.outOfFuel

/-! ## Branch equations for `validateWithState`

One conditional equation per branch of the dispatch; each follows from the
definition by discharging the branch guards.  Together they let the
symbolic proofs and concrete evaluation step the engine without entering a
branch whose guard fails. -/

theorem vwsNullable {tsCheck fuel state schema inst parentTag}
    (h : (nullableOf schema && inst == JsonValue.null) = true) :
    validateWithState tsCheck fuel state schema inst parentTag = Except.ok state := by
  rw [validateWithState.eq_def]
  simp only [h, Bool.false_eq_true, Bool.true_eq_false, eq_self_iff_true, ite_true, ite_false]

theorem vwsRefDepth {tsCheck fuel state schema inst parentTag}
    (h1 : (nullableOf schema && inst == JsonValue.null) = false)
    (h2 : isRefForm schema = true)
    (h3 : (state.schemaTokens.length == state.config.maxDepth) = true) :
    validateWithState tsCheck fuel state schema inst parentTag =
      Except.error (Halt.depth state) := by
  rw [validateWithState.eq_def]
  simp only [h1, h2, h3, Bool.false_eq_true, Bool.true_eq_false, eq_self_iff_true,
    ite_true, ite_false]

theorem vwsRefZero {tsCheck state schema inst parentTag}
    (h1 : (nullableOf schema && inst == JsonValue.null) = false)
    (h2 : isRefForm schema = true)
    (h3 : (state.schemaTokens.length == state.config.maxDepth) = false) :
    validateWithState tsCheck 0 state schema inst parentTag =
      Except.error (Halt.outOfFuel state) := by
  rw [validateWithState.eq_def]
  simp only [h1, h2, h3, Bool.false_eq_true, Bool.true_eq_false, eq_self_iff_true,
    ite_true, ite_false]

theorem vwsRefStep {tsCheck fuel state schema inst parentTag}
    (h1 : (nullableOf schema && inst == JsonValue.null) = false)
    (h2 : isRefForm schema = true)
    (h3 : (state.schemaTokens.length == state.config.maxDepth) = false) :
    validateWithState tsCheck (fuel + 1) state schema inst parentTag =
      popFrameWrap (validateWithState tsCheck fuel
        (pushFrame state ["definitions", strFieldOf schema "ref"])
        (defLookup state.root (strFieldOf schema "ref")) inst none) := by
  rw [validateWithState.eq_def]
  simp only [h1, h2, h3, Bool.false_eq_true, Bool.true_eq_false, eq_self_iff_true,
    ite_true, ite_false]

theorem vwsType {tsCheck fuel state schema inst parentTag}
    (h1 : (nullableOf schema && inst == JsonValue.null) = false)
    (h2 : isRefForm schema = false)
    (h3 : isTypeForm schema = true) :
    validateWithState tsCheck fuel state schema inst parentTag =
      popWrap (typeSwitch tsCheck (pushSchemaToken state "type")
        (strFieldOf schema "type") inst) := by
  rw [validateWithState.eq_def]
  simp only [h1, h2, h3, Bool.false_eq_true, Bool.true_eq_false, eq_self_iff_true,
    ite_true, ite_false]

theorem vwsEnum {tsCheck fuel state schema inst parentTag}
    (h1 : (nullableOf schema && inst == JsonValue.null) = false)
    (h2 : isRefForm schema = false)
    (h3 : isTypeForm schema = false)
    (h4 : isEnumForm schema = true) :
    validateWithState tsCheck fuel state schema inst parentTag =
      popWrap (enumCheck (pushSchemaToken state "enum") schema inst) := by
  rw [validateWithState.eq_def]
  simp only [h1, h2, h3, h4, Bool.false_eq_true, Bool.true_eq_false, eq_self_iff_true,
    ite_true, ite_false]

theorem vwsElements {tsCheck fuel state schema inst parentTag}
    (h1 : (nullableOf schema && inst == JsonValue.null) = false)
    (h2 : isRefForm schema = false)
    (h3 : isTypeForm schema = false)
    (h4 : isEnumForm schema = false)
    (h5 : isElementsForm schema = true) :
    validateWithState tsCheck fuel state schema inst parentTag =
      elementsDispatch tsCheck fuel state schema inst := by
  rw [validateWithState.eq_def]
  simp only [h1, h2, h3, h4, h5, Bool.false_eq_true, Bool.true_eq_false, eq_self_iff_true,
    ite_true, ite_false]

theorem vwsProps {tsCheck fuel state schema inst parentTag}
    (h1 : (nullableOf schema && inst == JsonValue.null) = false)
    (h2 : isRefForm schema = false)
    (h3 : isTypeForm schema = false)
    (h4 : isEnumForm schema = false)
    (h5 : isElementsForm schema = false)
    (h6 : isPropertiesForm schema = true) :
    validateWithState tsCheck fuel state schema inst parentTag =
      propsDispatch tsCheck fuel state schema inst parentTag := by
  rw [validateWithState.eq_def]
  simp only [h1, h2, h3, h4, h5, h6, Bool.false_eq_true, Bool.true_eq_false, eq_self_iff_true,
    ite_true, ite_false]

theorem vwsValues {tsCheck fuel state schema inst parentTag}
    (h1 : (nullableOf schema && inst == JsonValue.null) = false)
    (h2 : isRefForm schema = false)
    (h3 : isTypeForm schema = false)
    (h4 : isEnumForm schema = false)
    (h5 : isElementsForm schema = false)
    (h6 : isPropertiesForm schema = false)
    (h7 : isValuesForm schema = true) :
    validateWithState tsCheck fuel state schema inst parentTag =
      valuesDispatch tsCheck fuel state schema inst := by
  rw [validateWithState.eq_def]
  simp only [h1, h2, h3, h4, h5, h6, h7, Bool.false_eq_true, Bool.true_eq_false,
    eq_self_iff_true, ite_true, ite_false]

theorem vwsDisc {tsCheck fuel state schema inst parentTag}
    (h1 : (nullableOf schema && inst == JsonValue.null) = false)
    (h2 : isRefForm schema = false)
    (h3 : isTypeForm schema = false)
    (h4 : isEnumForm schema = false)
    (h5 : isElementsForm schema = false)
    (h6 : isPropertiesForm schema = false)
    (h7 : isValuesForm schema = false)
    (h8 : isDiscriminatorForm schema = true) :
    validateWithState tsCheck fuel state schema inst parentTag =
      discDispatch tsCheck fuel state schema inst := by
  rw [validateWithState.eq_def]
  simp only [h1, h2, h3, h4, h5, h6, h7, h8, Bool.false_eq_true, Bool.true_eq_false,
    eq_self_iff_true, ite_true, ite_false]

theorem vwsEmpty {tsCheck fuel state schema inst parentTag}
    (h1 : (nullableOf schema && inst == JsonValue.null) = false)
    (h2 : isRefForm schema = false)
    (h3 : isTypeForm schema = false)
    (h4 : isEnumForm schema = false)
    (h5 : isElementsForm schema = false)
    (h6 : isPropertiesForm schema = false)
    (h7 : isValuesForm schema = false)
    (h8 : isDiscriminatorForm schema = false) :
    validateWithState tsCheck fuel state schema inst parentTag = Except.ok state := by
  rw [validateWithState.eq_def]
  simp only [h1, h2, h3, h4, h5, h6, h7, h8, Bool.false_eq_true, Bool.true_eq_false,
    eq_self_iff_true, ite_true, ite_false]

/-! ## Claim C10 — termination of the schema checkers

The source functions recurse without any explicit bound; their recursion
descends into sub-values of the input tree, so they terminate on every
finite input.  To make that observable, each checker gets a structural
twin that spends one unit of fuel at every call and gives up (`none`) when
the fuel is exhausted; the adequacy theorems show fuel linear in the size
of the input always suffices, so the call depth of the source's recursion
is bounded by the input's size.  `isValidSchema` in particular never
follows a `ref` target, which is why it terminates even on definitions
that refer to each other cyclically. -/

mutual

def isSchemaFuel : Nat → JsonValue → Option Bool
  | 0, _ => none
  | f+1, JsonValue.obj fields => do
      let a ← isSchemaFieldsFuel f fields
      pure (isSchemaSignatureOk fields && a && isSchemaKnownKeys fields)
  | _+1, _ => pure false

def isSchemaFieldsFuel : Nat → List (String × JsonValue) → Option Bool
  | 0, _ => none
  | _+1, [] => pure true
  | f+1, (k, v) :: rest => do
      let a ← isSchemaKeywordFuel f k v
      let b ← isSchemaFieldsFuel f rest
      pure (a && b)

def isSchemaKeywordFuel : Nat → String → JsonValue → Option Bool
  | 0, _, _ => none
  | f+1, k, v =>
      match keywordShape k with
      | KeywordShape.schemaMap => isObjOfSchemasFuel f v
      | KeywordShape.boolean => pure (isBoolVal v)
      | KeywordShape.anyMap => pure (isObjVal v)
      | KeywordShape.string => pure (isStrVal v)
      | KeywordShape.typeName => pure (isTypeNameVal v)
      | KeywordShape.stringArray => pure (isStrArrVal v)
      | KeywordShape.schema => isSchemaFuel f v
      | KeywordShape.other => pure true

def isObjOfSchemasFuel : Nat → JsonValue → Option Bool
  | 0, _ => none
  | f+1, JsonValue.obj entries => isSchemaEntriesFuel f entries
  | _+1, _ => pure false

def isSchemaEntriesFuel : Nat → List (String × JsonValue) → Option Bool
  | 0, _ => none
  | _+1, [] => pure true
  | f+1, (_, v) :: rest => do
      let a ← isSchemaFuel f v
      let b ← isSchemaEntriesFuel f rest
      pure (a && b)

end

mutual

def isValidSchemaFuel : Nat → JsonValue → JsonValue → Option Bool
  | 0, _, _ => none
  | f+1, schema, root => do
      let a ← (match getField (fieldsOf schema) "definitions" with
        | some (JsonValue.obj defs) => do
            let x ← isValidSchemaEntriesFuel f defs root
            pure ((schema == root) && x)
        | some _ => pure (schema == root)
        | none => pure true)
      let b := (if isRefForm schema then
          match getField (fieldsOf schema) "ref" with
          | some (JsonValue.str r) => keyPresent (rootDefs root) r
          | _ => true
        else true)
      let c := (if isEnumForm schema then
          match getField (fieldsOf schema) "enum" with
          | some (JsonValue.arr elems) => !elems.isEmpty && (elems.dedup.length == elems.length)
          | _ => true
        else true)
      let d ← (match getField (fieldsOf schema) "elements" with
        | some e => isValidSchemaFuel f e root
        | none => do
            let p ← (if isPropertiesForm schema then do
                let p1 ← isValidSchemaEntriesFuel f (propsOf schema) root
                let p2 ← isValidSchemaEntriesFuel f (optsOf schema) root
                pure (p1 && p2 &&
                  (propsOf schema).all (fun kv => !keyPresent (optsOf schema) kv.1))
              else pure true)
            let w ← (match getField (fieldsOf schema) "values" with
              | some w => isValidSchemaFuel f w root
              | none =>
                  if isDiscriminatorForm schema then
                    isValidMappingFuel f (discriminatorOf schema) (mappingOf schema) root
                  else pure true)
            pure (p && w))
      pure (a && b && c && d)

def isValidSchemaEntriesFuel : Nat → List (String × JsonValue) → JsonValue → Option Bool
  | 0, _, _ => none
  | _+1, [], _ => pure true
  | f+1, (_, v) :: rest, root => do
      let a ← isValidSchemaFuel f v root
      let b ← isValidSchemaEntriesFuel f rest root
      pure (a && b)

def isValidMappingFuel : Nat → String → List (String × JsonValue) → JsonValue → Option Bool
  | 0, _, _, _ => none
  | _+1, _, [], _ => pure true
  | f+1, disc, (_, sub) :: rest, root => do
      let a ← isValidSchemaFuel f sub root
      let b ← isValidMappingFuel f disc rest root
      pure (a && isPropertiesForm sub && !nullableOf sub &&
        !keyPresent (propsOf sub) disc && !keyPresent (optsOf sub) disc && b)

end

theorem one_le_sizeOf_entries (l : List (String × JsonValue)) : 1 ≤ sizeOf l := by
  cases l <;> simp <;> omega

theorem isSchemaFuel_adequate : ∀ f : Nat,
    (∀ v, 2 * sizeOf v ≤ f → isSchemaFuel f v = some (isSchema v)) ∧
    (∀ l, 2 * sizeOf l ≤ f → isSchemaFieldsFuel f l = some (isSchemaFields l)) ∧
    (∀ k v, 2 * sizeOf v + 1 ≤ f → isSchemaKeywordFuel f k v = some (isSchemaKeyword k v)) ∧
    (∀ v, 2 * sizeOf v ≤ f → isObjOfSchemasFuel f v = some (isObjOfSchemas v)) ∧
    (∀ l, 2 * sizeOf l ≤ f → isSchemaEntriesFuel f l = some (isSchemaEntries l)) := by
  intro f
  induction f with
  | zero =>
      refine ⟨?_, ?_, ?_, ?_, ?_⟩ <;> intro x
      · intro h; have := JsonValue.one_le_sizeOf x; omega
      · intro h; have := one_le_sizeOf_entries x; omega
      · intro v h; omega
      · intro h; have := JsonValue.one_le_sizeOf x; omega
      · intro h; have := one_le_sizeOf_entries x; omega
  | succ f ih =>
      obtain ⟨ih1, ih2, ih3, ih4, ih5⟩ := ih
      refine ⟨?_, ?_, ?_, ?_, ?_⟩
      · intro v h
        cases v with
        | obj fields =>
            rw [isSchema]
            simp only [isSchemaFuel]
            rw [ih2 fields (by simp at h; omega)]
            simp [Bool.and_assoc]
        | null => simp only [isSchemaFuel]; rw [isSchema] <;> simp
        | bool b => simp only [isSchemaFuel]; rw [isSchema] <;> simp
        | num q => simp only [isSchemaFuel]; rw [isSchema] <;> simp
        | str s => simp only [isSchemaFuel]; rw [isSchema] <;> simp
        | arr elems => simp only [isSchemaFuel]; rw [isSchema] <;> simp
      · intro l h
        cases l with
        | nil => rw [isSchemaFields]; simp [isSchemaFieldsFuel]
        | cons kv rest =>
            obtain ⟨k, v⟩ := kv
            rw [isSchemaFields]
            simp only [isSchemaFieldsFuel]
            rw [ih3 k v (by simp at h; omega), ih2 rest (by simp at h; omega)]
            simp
      · intro k v h
        simp only [isSchemaKeywordFuel]
        rw [isSchemaKeyword]
        cases keywordShape k
        · exact ih4 v (by omega)
        · rfl
        · rfl
        · rfl
        · rfl
        · rfl
        · exact ih1 v (by omega)
        · rfl
      · intro v h
        cases v with
        | obj entries =>
            rw [isObjOfSchemas]
            simp only [isObjOfSchemasFuel]
            rw [ih5 entries (by simp at h; omega)]
        | null => simp only [isObjOfSchemasFuel]; rw [isObjOfSchemas] <;> simp
        | bool b => simp only [isObjOfSchemasFuel]; rw [isObjOfSchemas] <;> simp
        | num q => simp only [isObjOfSchemasFuel]; rw [isObjOfSchemas] <;> simp
        | str s => simp only [isObjOfSchemasFuel]; rw [isObjOfSchemas] <;> simp
        | arr elems => simp only [isObjOfSchemasFuel]; rw [isObjOfSchemas] <;> simp
      · intro l h
        cases l with
        | nil => rw [isSchemaEntries]; simp [isSchemaEntriesFuel]
        | cons kv rest =>
            obtain ⟨k, v⟩ := kv
            rw [isSchemaEntries]
            simp only [isSchemaEntriesFuel]
            rw [ih1 v (by simp at h; omega), ih5 rest (by simp at h; omega)]
            simp

/-! Named pieces of the `isValidSchema` conjunction, used to state its
branch equation: each is verbatim the corresponding segment of the
source's sequential checks. -/

/-- The `definitions` check: legal only when this node is the root,
recursing into every definition. -/
def defsCheck (schema root : JsonValue) : Bool :=
  match getField (fieldsOf schema) "definitions" with
  | some (JsonValue.obj defs) => (schema == root) && isValidSchemaEntries defs root
  | some _ => schema == root
  | none => true

/-- The `ref` check: the target must be a key of the root's definitions. -/
def refCheck (schema root : JsonValue) : Bool :=
  if isRefForm schema then
    match getField (fieldsOf schema) "ref" with
    | some (JsonValue.str r) => keyPresent (rootDefs root) r
    | _ => true
  else true

/-- The `enum` check: non-empty and duplicate-free. -/
def enumCheck2 (schema : JsonValue) : Bool :=
  if isEnumForm schema then
    match getField (fieldsOf schema) "enum" with
    | some (JsonValue.arr elems) => !elems.isEmpty && (elems.dedup.length == elems.length)
    | _ => true
  else true

/-- The Properties-form check: recurse into both maps, no shared key. -/
def propsCheck (schema root : JsonValue) : Bool :=
  if isPropertiesForm schema then
    isValidSchemaEntries (propsOf schema) root &&
    isValidSchemaEntries (optsOf schema) root &&
    (propsOf schema).all (fun kv => !keyPresent (optsOf schema) kv.1)
  else true

/-- The early-returning tail of `isValidSchema`: recurse into `elements`
when present, otherwise the Properties check, then recurse into `values`
when present, otherwise the Discriminator mapping check. -/
def tailCheck (schema root : JsonValue) : Bool :=
  match getField (fieldsOf schema) "elements" with
  | some e => isValidSchema e root
  | none =>
      propsCheck schema root &&
      (match getField (fieldsOf schema) "values" with
       | some w => isValidSchema w root
       | none =>
           if isDiscriminatorForm schema then
             isValidMapping (discriminatorOf schema) (mappingOf schema) root
           else true)

theorem isValidSchema_eq (schema root : JsonValue) :
    isValidSchema schema root =
      (defsCheck schema root && refCheck schema root && enumCheck2 schema &&
        tailCheck schema root) := by
  rw [isValidSchema.eq_def]
  simp only [defsCheck, refCheck, enumCheck2, propsCheck, tailCheck]
  split
  · next defs hdefs =>
      simp only [hdefs]
      congr 1
      split
      · next e helems => simp only [helems]
      · next helems =>
          simp only [helems]
          congr 1
          split
          · next w hvals => simp only [hvals]
          · next hvals => simp only [hvals]
  · next dv hne hdefs =>
      simp only [hdefs]
      congr 1
      split
      · next e helems => simp only [helems]
      · next helems =>
          simp only [helems]
          congr 1
          split
          · next w hvals => simp only [hvals]
          · next hvals => simp only [hvals]
  · next hdefs =>
      simp only [hdefs]
      congr 1
      split
      · next e helems => simp only [helems]
      · next helems =>
          simp only [helems]
          congr 1
          split
          · next w hvals => simp only [hvals]
          · next hvals => simp only [hvals]

theorem tailFuel_adequate (f : Nat) (schema root : JsonValue)
    (h : 2 * sizeOf schema + 1 ≤ f + 1)
    (ih1 : ∀ schema root, 2 * sizeOf schema + 1 ≤ f →
      isValidSchemaFuel f schema root = some (isValidSchema schema root))
    (ih2 : ∀ l root, 2 * sizeOf l ≤ f →
      isValidSchemaEntriesFuel f l root = some (isValidSchemaEntries l root))
    (ih3 : ∀ disc l root, 2 * sizeOf l ≤ f →
      isValidMappingFuel f disc l root = some (isValidMapping disc l root)) :
    (match getField (fieldsOf schema) "elements" with
     | some e => isValidSchemaFuel f e root
     | none => do
         let p ← (if isPropertiesForm schema then do
             let p1 ← isValidSchemaEntriesFuel f (propsOf schema) root
             let p2 ← isValidSchemaEntriesFuel f (optsOf schema) root
             pure (p1 && p2 &&
               (propsOf schema).all (fun kv => !keyPresent (optsOf schema) kv.1))
           else pure true)
         let w ← (match getField (fieldsOf schema) "values" with
           | some w => isValidSchemaFuel f w root
           | none =>
               if isDiscriminatorForm schema then
                 isValidMappingFuel f (discriminatorOf schema) (mappingOf schema) root
               else pure true)
         pure (p && w)) = some (tailCheck schema root) := by
  simp only [tailCheck, propsCheck]
  cases he : getField (fieldsOf schema) "elements" with
  | some e =>
      have hse := getField_fieldsOf_sizeOf he
      simp only []
      rw [ih1 e root (by omega)]
  | none =>
      simp only []
      by_cases hp : isPropertiesForm schema = true
      · have hb1 := objEntriesOf_sizeOf_le schema "properties"
        have hb2 := objEntriesOf_sizeOf_le schema "optionalProperties"
        rw [ih2 (propsOf schema) root (by unfold propsOf; omega),
            ih2 (optsOf schema) root (by unfold optsOf; omega)]
        simp only [hp, if_true, Option.some_bind]
        cases hv : getField (fieldsOf schema) "values" with
        | some w =>
            have hsw := getField_fieldsOf_sizeOf hv
            simp only []
            rw [ih1 w root (by omega)]
            simp
        | none =>
            simp only []
            by_cases hdisc : isDiscriminatorForm schema = true
            · have hm := objEntriesOf_sizeOf_le schema "mapping"
              rw [ih3 (discriminatorOf schema) (mappingOf schema) root
                (by unfold mappingOf; omega)]
              simp [hdisc]
            · simp [hdisc]
      · simp only [hp, if_false, Option.some_bind]
        cases hv : getField (fieldsOf schema) "values" with
        | some w =>
            have hsw := getField_fieldsOf_sizeOf hv
            simp only []
            rw [ih1 w root (by omega)]
            simp
        | none =>
            simp only []
            by_cases hdisc : isDiscriminatorForm schema = true
            · have hm := objEntriesOf_sizeOf_le schema "mapping"
              rw [ih3 (discriminatorOf schema) (mappingOf schema) root
                (by unfold mappingOf; omega)]
              simp [hdisc]
            · simp [hdisc]

theorem isValidSchemaFuel_adequate : ∀ f : Nat,
    (∀ schema root, 2 * sizeOf schema + 1 ≤ f →
      isValidSchemaFuel f schema root = some (isValidSchema schema root)) ∧
    (∀ l root, 2 * sizeOf l ≤ f →
      isValidSchemaEntriesFuel f l root = some (isValidSchemaEntries l root)) ∧
    (∀ disc l root, 2 * sizeOf l ≤ f →
      isValidMappingFuel f disc l root = some (isValidMapping disc l root)) := by
  intro f
  induction f with
  | zero =>
      refine ⟨?_, ?_, ?_⟩
      · intro s r h; exfalso; have := JsonValue.one_le_sizeOf s; omega
      · intro l r h; exfalso; have := one_le_sizeOf_entries l; omega
      · intro d l r h; exfalso; have := one_le_sizeOf_entries l; omega
  | succ f ih =>
      obtain ⟨ih1, ih2, ih3⟩ := ih
      refine ⟨?_, ?_, ?_⟩
      · intro schema root h
        rw [isValidSchema_eq]
        simp only [isValidSchemaFuel, defsCheck]
        cases hd : getField (fieldsOf schema) "definitions" with
        | some dv =>
            cases dv with
            | obj defs =>
                have hsd := getField_fieldsOf_sizeOf hd
                simp only []
                rw [ih2 defs root (by simp at hsd; omega),
                    tailFuel_adequate f schema root h ih1 ih2 ih3]
                simp [refCheck, enumCheck2]
            | null =>
                simp only []
                rw [tailFuel_adequate f schema root h ih1 ih2 ih3]
                simp [refCheck, enumCheck2]
            | bool b =>
                simp only []
                rw [tailFuel_adequate f schema root h ih1 ih2 ih3]
                simp [refCheck, enumCheck2]
            | num q =>
                simp only []
                rw [tailFuel_adequate f schema root h ih1 ih2 ih3]
                simp [refCheck, enumCheck2]
            | str s =>
                simp only []
                rw [tailFuel_adequate f schema root h ih1 ih2 ih3]
                simp [refCheck, enumCheck2]
            | arr elems =>
                simp only []
                rw [tailFuel_adequate f schema root h ih1 ih2 ih3]
                simp [refCheck, enumCheck2]
        | none =>
            simp only []
            rw [tailFuel_adequate f schema root h ih1 ih2 ih3]
            simp [refCheck, enumCheck2]
      · intro l root h
        cases l with
        | nil => rw [isValidSchemaEntries]; simp [isValidSchemaEntriesFuel]
        | cons kv rest =>
            obtain ⟨k, v⟩ := kv
            rw [isValidSchemaEntries]
            simp only [isValidSchemaEntriesFuel]
            rw [ih1 v root (by simp at h; omega), ih2 rest root (by simp at h; omega)]
            simp
      · intro disc l root h
        cases l with
        | nil => rw [isValidMapping]; simp [isValidMappingFuel]
        | cons kv rest =>
            obtain ⟨k, v⟩ := kv
            rw [isValidMapping]
            simp only [isValidMappingFuel]
            rw [ih1 v root (by simp at h; omega), ih3 disc rest root (by simp at h; omega)]
            simp [Bool.and_assoc]


/-! ## Claim C2 — the timestamp check (code bug)

The specification has `validate` delegate the `timestamp` type to the
repository's RFC 3339 checker (rfc3339.ts), whose own test suite accepts
the two leap-second examples of RFC 3339 section 5.8.  The shipped
validate.ts however calls the external moment library with
`moment(instance, moment.ISO_8601).isValid()`, and its own comment admits
that "moment does not support two of the examples given in RFC 3339 with
60 in the seconds place"; index.test.ts accordingly skips exactly those
two cases of the upstream validation suite.  The theorem evaluates the
embedded code at the failing input: the repository's checker accepts the
leap-second timestamps (and enforces the calendar and clock bounds), so a
validate that delegated to it would accept them, while a timestamp
predicate that rejects them (as the moment call does by the code's own
admission) makes validate record an error. -/

unseal validateWithState elementsDispatch propsDispatch valuesDispatch discDispatch validateElements validateProps validateOptProps validateValues in
/-- C2: at the failing input "1990-12-31T23:59:60Z" the repository's
RFC 3339 checker accepts (as does its test suite), hence a `validate`
delegating to `isRFC3339` returns no error, while one whose timestamp
predicate rejects leap seconds records exactly one error at
`schemaPath = ["type"]`. -/
theorem c2_timestamp_code_bug :
    isRFC3339 "1990-12-31T23:59:60Z" = true ∧
    isRFC3339 "1990-12-31T15:59:60-08:00" = true ∧
    isRFC3339 "2015-02-30T17:35:20-08:00" = false ∧
    isRFC3339 "2015-01-20T25:35:20-08:00" = false ∧
    isRFC3339 "2015-01-20T17:65:20-08:00" = false ∧
    isRFC3339 "2015-01-20T17:35:90-08:00" = false ∧
    validate isRFC3339 ⟨0, 0⟩ 1 (JsonValue.obj [("type", JsonValue.str "timestamp")])
      (JsonValue.str "1990-12-31T23:59:60Z") = Except.ok [] ∧
    validate (fun _ => false) ⟨0, 0⟩ 1 (JsonValue.obj [("type", JsonValue.str "timestamp")])
      (JsonValue.str "1990-12-31T23:59:60Z") =
      Except.ok [⟨[], ["type"]⟩] := by
  refine ⟨by decide, by decide, by decide, by decide, by decide, by decide, ?_, ?_⟩ <;> decide

/-! ## Claims C3 and C5 — the Empty form and the nullable short-circuit -/

unseal isSchema isSchemaFields isSchemaKeyword isSchemaEntries isValidSchema isValidSchemaEntries isValidMapping validateWithState elementsDispatch propsDispatch valuesDispatch discDispatch validateElements validateProps validateOptProps validateValues in
/-- C3 (counterexample): the claim says a null instance is not matched by a
non-nullable Empty-form schema; but the empty schema `{}` is a valid
schema, is not nullable, and validating `null` against it returns no
errors. -/
theorem c3_counterexample :
    isSchema (JsonValue.obj []) = true ∧
    isValidSchema (JsonValue.obj []) (JsonValue.obj []) = true ∧
    nullableOf (JsonValue.obj []) = false ∧
    validate isRFC3339 ⟨0, 0⟩ 1 (JsonValue.obj []) JsonValue.null = Except.ok [] := by
  refine ⟨by decide, by decide, by decide, by decide⟩

/-- C3 (amended): an Empty-form schema — none of the ten form keywords
present — matches every instance, null included, whatever its nullable
flag: `validate` returns the empty error list. -/
theorem c3_empty_matches_everything
    (tsCheck : String → Bool) (config : ValidationConfig) (fuel : Nat)
    (schema inst : JsonValue)
    (h : ∀ k ∈ FORM_KEYWORDS, keyPresent (fieldsOf schema) k = false) :
    validate tsCheck config fuel schema inst = Except.ok [] := by
  have hr : isRefForm schema = false := h "ref" (by decide)
  have ht : isTypeForm schema = false := h "type" (by decide)
  have hen : isEnumForm schema = false := h "enum" (by decide)
  have hel : isElementsForm schema = false := h "elements" (by decide)
  have hp : isPropertiesForm schema = false := by
    simp [isPropertiesForm, h "properties" (by decide), h "optionalProperties" (by decide)]
  have hv : isValuesForm schema = false := h "values" (by decide)
  have hd : isDiscriminatorForm schema = false := h "discriminator" (by decide)
  by_cases hg : (nullableOf schema && inst == JsonValue.null) = true
  · simp only [validate, vwsNullable hg]
  · have hg2 : (nullableOf schema && inst == JsonValue.null) = false := by
      rwa [Bool.not_eq_true] at hg
    simp only [validate, vwsEmpty hg2 hr ht hen hel hp hv hd]

/-- C3 (witness): the amended theorem applied to the empty schema and a
boolean instance. -/
theorem c3_witness :
    (∀ k ∈ FORM_KEYWORDS, keyPresent (fieldsOf (JsonValue.obj [])) k = false) ∧
    validate isRFC3339 ⟨0, 0⟩ 1 (JsonValue.obj []) (JsonValue.bool true) = Except.ok [] :=
  ⟨by decide, c3_empty_matches_everything isRFC3339 ⟨0, 0⟩ 1 (JsonValue.obj [])
    (JsonValue.bool true) (by decide)⟩

/-- C5: for any schema with `nullable: true`, validating `null` returns
immediately with zero errors — whatever the form, the configuration
(`maxDepth` included) and the ref budget; in particular no ref indirection
is counted and no depth-exceeded failure can be raised. -/
theorem c5_nullable_short_circuit
    (tsCheck : String → Bool) (config : ValidationConfig) (fuel : Nat)
    (schema : JsonValue) (h : nullableOf schema = true) :
    validate tsCheck config fuel schema JsonValue.null = Except.ok [] := by
  have hg : (nullableOf schema && JsonValue.null == JsonValue.null) = true := by simp [h]
  simp only [validate, vwsNullable hg]

/-- C5 (witness): a nullable Ref-form schema with a cyclic definition,
`maxDepth = 1` and no ref budget at all still accepts `null`. -/
theorem c5_witness :
    nullableOf (JsonValue.obj [("definitions", JsonValue.obj [("loop",
      JsonValue.obj [("ref", JsonValue.str "loop"), ("nullable", JsonValue.bool true)])]),
      ("ref", JsonValue.str "loop"), ("nullable", JsonValue.bool true)]) = true ∧
    validate isRFC3339 ⟨1, 0⟩ 0
      (JsonValue.obj [("definitions", JsonValue.obj [("loop",
        JsonValue.obj [("ref", JsonValue.str "loop"), ("nullable", JsonValue.bool true)])]),
        ("ref", JsonValue.str "loop"), ("nullable", JsonValue.bool true)])
      JsonValue.null = Except.ok [] :=
  ⟨by decide, c5_nullable_short_circuit isRFC3339 ⟨1, 0⟩ 0 _ (by decide)⟩

/-! ## Claim C7 — `isSchema` accepts only legal signatures and known keys -/

theorem isSchema_shape {v : JsonValue} (h : isSchema v = true) :
    VALID_FORMS.contains (formSignature (fieldsOf v)) = true ∧
    (fieldsOf v).all (fun kv => KNOWN_KEYWORDS.contains kv.1) = true ∧
    isSchemaFields (fieldsOf v) = true ∧
    ∃ fields, v = JsonValue.obj fields := by
  cases v
  case obj fields =>
    rw [isSchema] at h
    simp only [isSchemaSignatureOk, isSchemaKnownKeys, Bool.and_eq_true] at h
    exact ⟨h.1.1, h.2, h.1.2, fields, rfl⟩
  all_goals rw [isSchema] at h
  any_goals simp
  all_goals exact absurd h (by simp)

theorem isSchema_obj_eq (fields : List (String × JsonValue)) :
    isSchema (JsonValue.obj fields) =
      (isSchemaSignatureOk fields && isSchemaFields fields && isSchemaKnownKeys fields) := by
  rw [isSchema]

/-- C7: a value accepted by `isSchema` is a string-keyed object whose
presence signature over the ten form keywords is one of the 13 rows of
`VALID_FORMS` (and there are exactly 13), and whose keys all lie among the
fourteen known keywords; and the two illegal combinations named by the
claim — `type` together with `elements`, and `additionalProperties`
alone — are rejected. -/
theorem c7_signature_table :
    (∀ v, isSchema v = true →
      VALID_FORMS.contains (formSignature (fieldsOf v)) = true ∧
      (fieldsOf v).all (fun kv => KNOWN_KEYWORDS.contains kv.1) = true ∧
      ∃ fields, v = JsonValue.obj fields) ∧
    VALID_FORMS.length = 13 ∧
    isSchema (JsonValue.obj [("type", JsonValue.str "boolean"),
      ("elements", JsonValue.obj [])]) = false ∧
    isSchema (JsonValue.obj [("additionalProperties", JsonValue.bool true)]) = false := by
  refine ⟨fun _ h => ⟨(isSchema_shape h).1, (isSchema_shape h).2.1, (isSchema_shape h).2.2.2⟩,
    by decide, ?_, ?_⟩ <;>
  · simp only [isSchema, isSchemaFields, isSchemaKeyword, isObjOfSchemas,
      isSchemaEntries, keywordShape, isSchemaSignatureOk, isSchemaKnownKeys,
      isBoolVal, isStrVal, isObjVal, isTypeNameVal, isStrArrVal]
    decide

/-- C7 (witness): applied to the schema `{"type": "boolean"}`. -/
theorem c7_witness :
    isSchema (JsonValue.obj [("type", JsonValue.str "boolean")]) = true ∧
    VALID_FORMS.contains (formSignature (fieldsOf
      (JsonValue.obj [("type", JsonValue.str "boolean")]))) = true := by
  have hs : isSchema (JsonValue.obj [("type", JsonValue.str "boolean")]) = true := by
    simp only [isSchema, isSchemaFields, isSchemaKeyword, isObjOfSchemas,
      isSchemaEntries, keywordShape, isSchemaSignatureOk, isSchemaKnownKeys,
      isBoolVal, isStrVal, isObjVal, isTypeNameVal, isStrArrVal]
    decide
  exact ⟨hs, (c7_signature_table.1 _ hs).1⟩

/-! ## Claim C8 — exactly one form predicate holds on a legal schema -/

theorem keyPresent_of_mem {fields : List (String × JsonValue)}
    {kv : String × JsonValue} (h : kv ∈ fields) : keyPresent fields kv.1 = true := by
  induction fields with
  | nil => cases h
  | cons kv0 rest ih =>
    obtain ⟨k0, v0⟩ := kv0
    simp only [keyPresent, getField]
    by_cases hk : k0 = kv.1
    · simp [hk]
    · rcases List.mem_cons.mp h with h1 | h1
      · rw [h1] at hk; simp at hk
      · have h2 := ih h1
        simp only [keyPresent] at h2
        simp [hk, h2]

theorem mem_of_getField_some {fields : List (String × JsonValue)}
    {k : String} {v : JsonValue} (h : getField fields k = some v) : (k, v) ∈ fields := by
  induction fields with
  | nil => simp [getField] at h
  | cons kv0 rest ih =>
    obtain ⟨k0, v0⟩ := kv0
    simp only [getField] at h
    split at h
    · next heq => cases h; rw [heq]; exact List.mem_cons_self _ _
    · exact List.mem_cons_of_mem _ (ih h)

theorem isEmptyForm_of_no_form {fields : List (String × JsonValue)}
    (hknown : fields.all (fun kv => KNOWN_KEYWORDS.contains kv.1) = true)
    (hnone : ∀ k ∈ FORM_KEYWORDS, keyPresent fields k = false) :
    isEmptyForm (JsonValue.obj fields) = true := by
  simp only [isEmptyForm, fieldsOf, List.all_eq_true] at hknown ⊢
  intro kv hkv
  have hk := hknown kv hkv
  have hmem : kv.1 ∈ KNOWN_KEYWORDS := List.mem_of_elem_eq_true hk
  simp only [KNOWN_KEYWORDS, List.mem_append] at hmem
  rcases hmem with h | h
  · simp only [List.mem_cons, List.not_mem_nil, or_false] at h
    rcases h with h | h | h <;> simp [h]
  · have h2 := keyPresent_of_mem hkv
    rw [hnone kv.1 h] at h2
    cases h2

theorem isEmptyForm_false_of_form {fields : List (String × JsonValue)} {k : String}
    (hk : k ∈ FORM_KEYWORDS) (h : keyPresent fields k = true) :
    isEmptyForm (JsonValue.obj fields) = false := by
  simp only [keyPresent, Option.isSome_iff_exists] at h
  obtain ⟨v, hv⟩ := h
  have hmem := mem_of_getField_some hv
  simp only [isEmptyForm, fieldsOf, List.all_eq_false]
  refine ⟨(k, v), hmem, ?_⟩
  simp only [FORM_KEYWORDS, List.mem_cons, List.not_mem_nil, or_false] at hk
  rcases hk with rfl | rfl | rfl | rfl | rfl | rfl | rfl | rfl | rfl | rfl <;> simp

/-- C8: on every value accepted by `isSchema`, exactly one of the eight
form predicates `isEmptyForm`, `isRefForm`, `isTypeForm`, `isEnumForm`,
`isElementsForm`, `isPropertiesForm`, `isValuesForm`,
`isDiscriminatorForm` is true: the list of their values contains the
value `true` exactly once. -/
theorem c8_exactly_one_form (v : JsonValue) (h : isSchema v = true) :
    (formPreds v).count true = 1 := by
  obtain ⟨hsig, hknown, _, fields, rfl⟩ := isSchema_shape h
  simp only [fieldsOf] at hsig hknown
  have hmem : formSignature fields ∈ VALID_FORMS := List.mem_of_elem_eq_true hsig
  rw [show formSignature fields =
      [keyPresent fields "ref", keyPresent fields "type",
       keyPresent fields "enum", keyPresent fields "elements",
       keyPresent fields "properties", keyPresent fields "optionalProperties",
       keyPresent fields "additionalProperties", keyPresent fields "values",
       keyPresent fields "discriminator", keyPresent fields "mapping"] from rfl] at hmem
  simp only [VALID_FORMS, List.mem_cons, List.not_mem_nil, or_false] at hmem
  rcases hmem with h13 | h13 | h13 | h13 | h13 | h13 | h13 | h13 | h13 | h13 | h13 | h13 | h13 <;>
  · simp only [List.cons.injEq, and_true] at h13
    obtain ⟨h1, h2, h3, h4, h5, h6, h7, h8, h9, h10⟩ := h13
    first
    | -- some form keyword is present: the Empty form is excluded, and the
      -- row fixes every predicate
      (have hemp : isEmptyForm (JsonValue.obj fields) = false := by
         first
         | exact isEmptyForm_false_of_form (by decide) h1
         | exact isEmptyForm_false_of_form (by decide) h2
         | exact isEmptyForm_false_of_form (by decide) h3
         | exact isEmptyForm_false_of_form (by decide) h4
         | exact isEmptyForm_false_of_form (by decide) h5
         | exact isEmptyForm_false_of_form (by decide) h6
         | exact isEmptyForm_false_of_form (by decide) h8
         | exact isEmptyForm_false_of_form (by decide) h9
       simp only [formPreds, isRefForm, isTypeForm, isEnumForm, isElementsForm,
         isPropertiesForm, isValuesForm, isDiscriminatorForm, fieldsOf,
         h1, h2, h3, h4, h5, h6, h8, h9, hemp]
       decide)
    | -- the all-false row: only the Empty form holds
      (have hnone : ∀ k ∈ FORM_KEYWORDS, keyPresent fields k = false := by
         intro k hk
         simp only [FORM_KEYWORDS, List.mem_cons, List.not_mem_nil, or_false] at hk
         rcases hk with rfl | rfl | rfl | rfl | rfl | rfl | rfl | rfl | rfl | rfl <;> assumption
       have hemp := isEmptyForm_of_no_form hknown hnone
       simp only [formPreds, isRefForm, isTypeForm, isEnumForm, isElementsForm,
         isPropertiesForm, isValuesForm, isDiscriminatorForm, fieldsOf,
         h1, h2, h3, h4, h5, h6, h8, h9, hemp]
       decide)

/-- C8 (witness): applied to the Ref-form schema `{"ref": "a"}`. -/
theorem c8_witness :
    isSchema (JsonValue.obj [("ref", JsonValue.str "a")]) = true ∧
    (formPreds (JsonValue.obj [("ref", JsonValue.str "a")])).count true = 1 := by
  have hs : isSchema (JsonValue.obj [("ref", JsonValue.str "a")]) = true := by
    simp only [isSchema, isSchemaFields, isSchemaKeyword, isObjOfSchemas,
      isSchemaEntries, keywordShape, isSchemaSignatureOk, isSchemaKnownKeys,
      isBoolVal, isStrVal, isObjVal, isTypeNameVal, isStrArrVal]
    decide
  exact ⟨hs, c8_exactly_one_form _ hs⟩


/-! ## Claim C9 — the Discriminator form -/

theorem discNoField {tsCheck fuel state schema instFields}
    (h : getField instFields (discriminatorOf schema) = none) :
    discDispatch tsCheck fuel state schema (JsonValue.obj instFields) =
      popWrap (pushError (pushSchemaToken state "discriminator")) := by
  rw [discDispatch.eq_def]
  simp only [h]

theorem discBadTag {tsCheck fuel state schema instFields tag}
    (h : getField instFields (discriminatorOf schema) = some (JsonValue.str tag))
    (h2 : getField (mappingOf schema) tag = none) :
    discDispatch tsCheck fuel state schema (JsonValue.obj instFields) =
      popWrapInstSchema (pushError (pushInstanceToken
        (pushSchemaToken state "mapping") (discriminatorOf schema))) := by
  rw [discDispatch.eq_def]
  simp only [h]
  split
  · next s hvals =>
      rw [h2] at hvals
      cases hvals
  · next hvals => rfl

theorem discKnownTag {tsCheck fuel state schema instFields tag subSchema}
    (h : getField instFields (discriminatorOf schema) = some (JsonValue.str tag))
    (h2 : getField (mappingOf schema) tag = some subSchema) :
    discDispatch tsCheck fuel state schema (JsonValue.obj instFields) =
      popWrap (popWrap (validateWithState tsCheck fuel
        (pushSchemaToken (pushSchemaToken state "mapping") tag)
        subSchema (JsonValue.obj instFields) (some (discriminatorOf schema)))) := by
  rw [discDispatch.eq_def]
  simp only [h]
  split
  · next s hvals =>
      rw [h2] at hvals
      injection hvals with he
      rw [he]
  · next hvals =>
      rw [h2] at hvals
      cases hvals

theorem obj_beq_null (instFields : List (String × JsonValue)) :
    (JsonValue.obj instFields == JsonValue.null) = false := by
  rw [beq_eq_false_iff_ne]
  intro hcon
  cases hcon

theorem disc_form_exclusive {v : JsonValue} (h : isSchema v = true)
    (hd : isDiscriminatorForm v = true) :
    isRefForm v = false ∧ isTypeForm v = false ∧ isEnumForm v = false ∧
    isElementsForm v = false ∧ isPropertiesForm v = false ∧ isValuesForm v = false := by
  obtain ⟨hsig, hknown, _, fields, rfl⟩ := isSchema_shape h
  simp only [fieldsOf] at hsig
  simp only [isDiscriminatorForm, fieldsOf] at hd
  have hmem : formSignature fields ∈ VALID_FORMS := List.mem_of_elem_eq_true hsig
  rw [show formSignature fields =
      [keyPresent fields "ref", keyPresent fields "type",
       keyPresent fields "enum", keyPresent fields "elements",
       keyPresent fields "properties", keyPresent fields "optionalProperties",
       keyPresent fields "additionalProperties", keyPresent fields "values",
       keyPresent fields "discriminator", keyPresent fields "mapping"] from rfl] at hmem
  simp only [VALID_FORMS, List.mem_cons, List.not_mem_nil, or_false] at hmem
  rcases hmem with h13 | h13 | h13 | h13 | h13 | h13 | h13 | h13 | h13 | h13 | h13 | h13 | h13 <;>
  · simp only [List.cons.injEq, and_true] at h13
    obtain ⟨h1, h2, h3, h4, h5, h6, h7, h8, h9, h10⟩ := h13
    first
    | exact absurd hd (by rw [h9]; exact Bool.false_ne_true)
    | exact ⟨by simp [isRefForm, fieldsOf, h1], by simp [isTypeForm, fieldsOf, h2],
        by simp [isEnumForm, fieldsOf, h3], by simp [isElementsForm, fieldsOf, h4],
        by simp [isPropertiesForm, fieldsOf, h5, h6], by simp [isValuesForm, fieldsOf, h8]⟩

theorem propsDispatchStep {tsCheck : String → Bool} {fuel : Nat} {state : ValidationState}
    {schema : JsonValue} {instFields props : List (String × JsonValue)}
    {parentTag : Option String}
    (hp : getField (fieldsOf schema) "properties" = some (JsonValue.obj props))
    (ho : getField (fieldsOf schema) "optionalProperties" = none) :
    propsDispatch tsCheck fuel state schema (JsonValue.obj instFields) parentTag =
      match popWrap (validateProps tsCheck fuel
          (pushSchemaToken state "properties") props instFields) with
      | Except.error h => Except.error h
      | Except.ok stA =>
          if additionalOf schema then Except.ok stA
          else checkAdditional (propsOf schema) (optsOf schema) parentTag instFields stA := by
  rw [propsDispatch.eq_def]
  split
  · next fields2 heq =>
      injection heq with he
      subst he
      split
      · next e hpr =>
          rw [hp] at hpr
          simp at hpr
          rw [hpr]
      · next stA hpr =>
          rw [hp] at hpr
          simp at hpr
          rw [hpr]
          split
          · next e2 hopr =>
              rw [ho] at hopr
              simp at hopr
          · next stB hopr =>
              rw [ho] at hopr
              simp at hopr
              subst hopr
              rfl
  · next x hcon => exact absurd rfl (hcon instFields)

theorem validatePropsNil {tsCheck fuel state instFields} :
    validateProps tsCheck fuel state [] instFields = Except.ok state := by
  rw [validateProps.eq_def]

theorem validate_of_vws_ok {tsCheck : String → Bool} {config : ValidationConfig}
    {fuel : Nat} {schema inst : JsonValue} {st : ValidationState}
    (h : validateWithState tsCheck fuel ⟨[], [], [[]], schema, config⟩ schema inst none =
      Except.ok st) :
    validate tsCheck config fuel schema inst = Except.ok st.errors := by
  simp only [validate, h]

theorem discExampleStep1 : validateWithState (fun _ => true) 1
      (⟨[], [], [[]], JsonValue.obj [("discriminator", JsonValue.str "k"),
        ("mapping", JsonValue.obj [("a", JsonValue.obj [("properties",
          JsonValue.obj [])])])], ⟨0, 0⟩⟩ : ValidationState)
      (JsonValue.obj [("discriminator", JsonValue.str "k"),
        ("mapping", JsonValue.obj [("a", JsonValue.obj [("properties",
          JsonValue.obj [])])])])
      (JsonValue.obj [("k", JsonValue.str "a")]) none =
      discDispatch (fun _ => true) 1
      (⟨[], [], [[]], JsonValue.obj [("discriminator", JsonValue.str "k"),
        ("mapping", JsonValue.obj [("a", JsonValue.obj [("properties",
          JsonValue.obj [])])])], ⟨0, 0⟩⟩ : ValidationState)
      (JsonValue.obj [("discriminator", JsonValue.str "k"),
        ("mapping", JsonValue.obj [("a", JsonValue.obj [("properties",
          JsonValue.obj [])])])])
      (JsonValue.obj [("k", JsonValue.str "a")]) :=
    vwsDisc (by decide) (by decide) (by decide) (by decide) (by decide) (by decide)
      (by decide) (by decide)

theorem discExampleStep2 : discDispatch (fun _ => true) 1
      (⟨[], [], [[]], JsonValue.obj [("discriminator", JsonValue.str "k"),
        ("mapping", JsonValue.obj [("a", JsonValue.obj [("properties",
          JsonValue.obj [])])])], ⟨0, 0⟩⟩ : ValidationState)
      (JsonValue.obj [("discriminator", JsonValue.str "k"),
        ("mapping", JsonValue.obj [("a", JsonValue.obj [("properties",
          JsonValue.obj [])])])])
      (JsonValue.obj [("k", JsonValue.str "a")]) =
      popWrap (popWrap (validateWithState (fun _ => true) 1
        (⟨[], [], [["mapping", "a"]], JsonValue.obj [("discriminator", JsonValue.str "k"),
          ("mapping", JsonValue.obj [("a", JsonValue.obj [("properties",
            JsonValue.obj [])])])], ⟨0, 0⟩⟩ : ValidationState)
        (JsonValue.obj [("properties", JsonValue.obj [])])
        (JsonValue.obj [("k", JsonValue.str "a")]) (some "k"))) :=
    discKnownTag (by decide) (by decide)

theorem discExampleStep3 : validateWithState (fun _ => true) 1
      (⟨[], [], [["mapping", "a"]], JsonValue.obj [("discriminator", JsonValue.str "k"),
        ("mapping", JsonValue.obj [("a", JsonValue.obj [("properties",
          JsonValue.obj [])])])], ⟨0, 0⟩⟩ : ValidationState)
      (JsonValue.obj [("properties", JsonValue.obj [])])
      (JsonValue.obj [("k", JsonValue.str "a")]) (some "k") =
      Except.ok
      (⟨[], [], [["mapping", "a"]], JsonValue.obj [("discriminator", JsonValue.str "k"),
        ("mapping", JsonValue.obj [("a", JsonValue.obj [("properties",
          JsonValue.obj [])])])], ⟨0, 0⟩⟩ : ValidationState) := by
  rw [vwsProps (by decide) (by decide) (by decide) (by decide) (by decide) (by decide)]
  rw [propsDispatchStep (show getField (fieldsOf (JsonValue.obj [("properties",
        JsonValue.obj [])])) "properties" = some (JsonValue.obj []) from by decide)
      (by decide)]
  rw [validatePropsNil]
  decide

theorem discExampleOk :
    validate (fun _ => true) ⟨0, 0⟩ 1
      (JsonValue.obj [("discriminator", JsonValue.str "k"),
        ("mapping", JsonValue.obj [("a", JsonValue.obj [("properties",
          JsonValue.obj [])])])])
      (JsonValue.obj [("k", JsonValue.str "a")]) =
      Except.ok [] :=
  validate_of_vws_ok (discExampleStep1.trans (discExampleStep2.trans
    (by rw [discExampleStep3]; rfl)))

theorem propsExampleStep : validateWithState (fun _ => true) 1
      (⟨[], [], [[]], JsonValue.obj [("properties", JsonValue.obj [])],
        ⟨0, 0⟩⟩ : ValidationState)
      (JsonValue.obj [("properties", JsonValue.obj [])])
      (JsonValue.obj [("k", JsonValue.str "a")]) none =
      Except.ok
      (⟨[⟨["k"], []⟩], [], [[]], JsonValue.obj [("properties", JsonValue.obj [])],
        ⟨0, 0⟩⟩ : ValidationState) := by
  rw [vwsProps (by decide) (by decide) (by decide) (by decide) (by decide) (by decide)]
  rw [propsDispatchStep (show getField (fieldsOf (JsonValue.obj [("properties",
        JsonValue.obj [])])) "properties" = some (JsonValue.obj []) from by decide)
      (by decide)]
  rw [validatePropsNil]
  decide

theorem propsExampleFlagsTag :
    validate (fun _ => true) ⟨0, 0⟩ 1
      (JsonValue.obj [("properties", JsonValue.obj [])])
      (JsonValue.obj [("k", JsonValue.str "a")]) =
      Except.ok [⟨["k"], []⟩] :=
  validate_of_vws_ok propsExampleStep

/-- C9: on a Discriminator-form schema (i) an object instance lacking the
discriminator field yields the single error `⟨[], ["discriminator"]⟩`;
(ii) an object instance whose tag is a string unknown to `mapping` yields
the single error `⟨[discriminator-name], ["mapping"]⟩`, the instance path
ending at the discriminator field; (iii) a known tag recurses into the
mapped sub-schema with the discriminator name passed as the parent-tag
exception; (iv) the additional-properties loop never flags a key equal to
the parent tag; and (v) concretely, a discriminator instance passes while
the same Properties-form schema validated directly flags the same-named
tag field as an additional property. -/
theorem c9_discriminator :
    (∀ tsCheck config fuel schema instFields,
      isSchema schema = true → isDiscriminatorForm schema = true →
      getField instFields (discriminatorOf schema) = none →
      validate tsCheck config fuel schema (JsonValue.obj instFields) =
        Except.ok [⟨[], ["discriminator"]⟩]) ∧
    (∀ tsCheck config fuel schema instFields tag,
      isSchema schema = true → isDiscriminatorForm schema = true →
      getField instFields (discriminatorOf schema) = some (JsonValue.str tag) →
      getField (mappingOf schema) tag = none →
      validate tsCheck config fuel schema (JsonValue.obj instFields) =
        Except.ok [⟨[discriminatorOf schema], ["mapping"]⟩]) ∧
    (∀ tsCheck fuel state schema instFields tag subSchema parentTag,
      isSchema schema = true → isDiscriminatorForm schema = true →
      getField instFields (discriminatorOf schema) = some (JsonValue.str tag) →
      getField (mappingOf schema) tag = some subSchema →
      validateWithState tsCheck fuel state schema (JsonValue.obj instFields) parentTag =
        popWrap (popWrap (validateWithState tsCheck fuel
          (pushSchemaToken (pushSchemaToken state "mapping") tag)
          subSchema (JsonValue.obj instFields) (some (discriminatorOf schema))))) ∧
    (∀ props opts t v rest st,
      checkAdditional props opts (some t) ((t, v) :: rest) st =
        checkAdditional props opts (some t) rest st) ∧
    validate (fun _ => true) ⟨0, 0⟩ 1
      (JsonValue.obj [("discriminator", JsonValue.str "k"),
        ("mapping", JsonValue.obj [("a", JsonValue.obj [("properties",
          JsonValue.obj [])])])])
      (JsonValue.obj [("k", JsonValue.str "a")]) =
      Except.ok [] ∧
    validate (fun _ => true) ⟨0, 0⟩ 1
      (JsonValue.obj [("properties", JsonValue.obj [])])
      (JsonValue.obj [("k", JsonValue.str "a")]) =
      Except.ok [⟨["k"], []⟩] := by
  refine ⟨?_, ?_, ?_, ?_, ?_, ?_⟩
  · intro tsCheck config fuel schema instFields hs hd hnone
    obtain ⟨hr, ht, hen, hel, hp, hv⟩ := disc_form_exclusive hs hd
    have hguard : (nullableOf schema && (JsonValue.obj instFields == JsonValue.null)) = false := by
      rw [obj_beq_null, Bool.and_false]
    simp only [validate]
    rw [vwsDisc hguard hr ht hen hel hp hv hd, discNoField hnone]
    have hred : pushSchemaToken (⟨[], [], [[]], schema, config⟩ : ValidationState)
        "discriminator" = ⟨[], [], [["discriminator"]], schema, config⟩ := rfl
    rw [hred]
    have hpe : pushError (⟨[], [], [["discriminator"]], schema, config⟩ : ValidationState) =
        (if (1 == config.maxErrors) = true then
          Except.error (Halt.errs ⟨[⟨[], ["discriminator"]⟩], [], [["discriminator"]],
            schema, config⟩)
         else Except.ok ⟨[⟨[], ["discriminator"]⟩], [], [["discriminator"]],
            schema, config⟩) := by
      simp [pushError, currentFrame]
    rw [hpe]
    by_cases hme : (1 == config.maxErrors) = true
    · simp [hme, popWrap]
    · simp [hme, popWrap, popSchemaToken]
  · intro tsCheck config fuel schema instFields tag hs hd htag hmapmiss
    obtain ⟨hr, ht, hen, hel, hp, hv⟩ := disc_form_exclusive hs hd
    have hguard : (nullableOf schema && (JsonValue.obj instFields == JsonValue.null)) = false := by
      rw [obj_beq_null, Bool.and_false]
    simp only [validate]
    rw [vwsDisc hguard hr ht hen hel hp hv hd, discBadTag htag hmapmiss]
    have hred : pushInstanceToken (pushSchemaToken
        (⟨[], [], [[]], schema, config⟩ : ValidationState) "mapping")
        (discriminatorOf schema) =
        ⟨[], [discriminatorOf schema], [["mapping"]], schema, config⟩ := rfl
    rw [hred]
    have hpe : pushError (⟨[], [discriminatorOf schema], [["mapping"]], schema,
        config⟩ : ValidationState) =
        (if (1 == config.maxErrors) = true then
          Except.error (Halt.errs ⟨[⟨[discriminatorOf schema], ["mapping"]⟩],
            [discriminatorOf schema], [["mapping"]], schema, config⟩)
         else Except.ok ⟨[⟨[discriminatorOf schema], ["mapping"]⟩],
            [discriminatorOf schema], [["mapping"]], schema, config⟩) := by
      simp [pushError, currentFrame]
    rw [hpe]
    by_cases hme : (1 == config.maxErrors) = true
    · simp [hme, popWrapInstSchema]
    · simp [hme, popWrapInstSchema, popSchemaToken, popInstanceToken]
  · intro tsCheck fuel state schema instFields tag subSchema parentTag hs hd htag hmap
    obtain ⟨hr, ht, hen, hel, hp, hv⟩ := disc_form_exclusive hs hd
    have hguard : (nullableOf schema && (JsonValue.obj instFields == JsonValue.null)) = false := by
      rw [obj_beq_null, Bool.and_false]
    rw [vwsDisc hguard hr ht hen hel hp hv hd, discKnownTag htag hmap]
  · intro props opts t v rest st
    rw [checkAdditional]
    simp
  · exact discExampleOk
  · exact propsExampleFlagsTag

/-- C9 (witness): the universal parts applied to the concrete discriminator
schema `{"discriminator": "k", "mapping": {"a": {"properties": {"p": {}}}}}`
with a tag-less instance and with an unknown tag. -/
theorem c9_witness :
    validate (fun _ => true) ⟨0, 0⟩ 1
      (JsonValue.obj [("discriminator", JsonValue.str "k"),
        ("mapping", JsonValue.obj [("a", JsonValue.obj [("properties",
          JsonValue.obj [("p", JsonValue.obj [])])])])])
      (JsonValue.obj []) = Except.ok [⟨[], ["discriminator"]⟩] ∧
    validate (fun _ => true) ⟨0, 0⟩ 1
      (JsonValue.obj [("discriminator", JsonValue.str "k"),
        ("mapping", JsonValue.obj [("a", JsonValue.obj [("properties",
          JsonValue.obj [("p", JsonValue.obj [])])])])])
      (JsonValue.obj [("k", JsonValue.str "b")]) =
      Except.ok [⟨["k"], ["mapping"]⟩] := by
  have hs : isSchema (JsonValue.obj [("discriminator", JsonValue.str "k"),
      ("mapping", JsonValue.obj [("a", JsonValue.obj [("properties",
        JsonValue.obj [("p", JsonValue.obj [])])])])]) = true := by
    simp only [isSchema, isSchemaFields, isSchemaKeyword, isObjOfSchemas,
      isSchemaEntries, keywordShape, isSchemaSignatureOk, isSchemaKnownKeys,
      isBoolVal, isStrVal, isObjVal, isTypeNameVal, isStrArrVal]
    decide
  exact ⟨c9_discriminator.1 _ _ _ _ _ hs (by decide) (by decide),
         c9_discriminator.2.1 _ _ _ _ _ "b" hs (by decide) (by decide) (by decide)⟩

/-! ## Branch equations for the dispatchers and loops

One equation per arm, mirroring the `vws*` family; the annotated matches
of the dispatchers are resolved by `split`. -/

theorem elementsDispatchSome {tsCheck fuel state schema instElems es}
    (h : getField (fieldsOf schema) "elements" = some es) :
    elementsDispatch tsCheck fuel state schema (JsonValue.arr instElems) =
      popWrap (validateElements tsCheck fuel (pushSchemaToken state "elements")
        es instElems 0) := by
  rw [elementsDispatch.eq_def]
  split
  · next e he =>
      rw [h] at he
      injection he with he2
      subst he2
      rfl
  · next he =>
      rw [h] at he
      cases he

theorem elementsDispatchNotArr {tsCheck fuel state schema inst es}
    (h : getField (fieldsOf schema) "elements" = some es)
    (hna : ∀ l, inst ≠ JsonValue.arr l) :
    elementsDispatch tsCheck fuel state schema inst =
      popWrap (pushError (pushSchemaToken state "elements")) := by
  rw [elementsDispatch.eq_def]
  split
  · next e he =>
      rw [h] at he
      injection he with he2
      subst he2
      cases inst with
      | arr l => exact absurd rfl (hna l)
      | null => rfl
      | bool b => rfl
      | num q => rfl
      | str s => rfl
      | obj fields => rfl
  · next he =>
      rw [h] at he
      cases he

theorem elementsDispatchNone {tsCheck fuel state schema inst}
    (h : getField (fieldsOf schema) "elements" = none) :
    elementsDispatch tsCheck fuel state schema inst = Except.ok state := by
  rw [elementsDispatch.eq_def]
  split
  · next e he =>
      rw [h] at he
      cases he
  · next he => rfl

theorem valuesDispatchObj {tsCheck fuel state schema instFields vs}
    (h : getField (fieldsOf schema) "values" = some vs) :
    valuesDispatch tsCheck fuel state schema (JsonValue.obj instFields) =
      popWrap (validateValues tsCheck fuel (pushSchemaToken state "values")
        vs instFields) := by
  rw [valuesDispatch.eq_def]
  split
  · next v hv =>
      rw [h] at hv
      injection hv with hv2
      subst hv2
      rfl
  · next hv =>
      rw [h] at hv
      cases hv

theorem valuesDispatchNotObj {tsCheck fuel state schema inst vs}
    (h : getField (fieldsOf schema) "values" = some vs)
    (hno : ∀ l, inst ≠ JsonValue.obj l) :
    valuesDispatch tsCheck fuel state schema inst =
      popWrap (pushError (pushSchemaToken state "values")) := by
  rw [valuesDispatch.eq_def]
  split
  · next v hv =>
      rw [h] at hv
      injection hv with hv2
      subst hv2
      cases inst with
      | obj l => exact absurd rfl (hno l)
      | null => rfl
      | bool b => rfl
      | num q => rfl
      | str s => rfl
      | arr l => rfl
  · next hv =>
      rw [h] at hv
      cases hv

theorem valuesDispatchNone {tsCheck fuel state schema inst}
    (h : getField (fieldsOf schema) "values" = none) :
    valuesDispatch tsCheck fuel state schema inst = Except.ok state := by
  rw [valuesDispatch.eq_def]
  split
  · next v hv =>
      rw [h] at hv
      cases hv
  · next hv => rfl

theorem discNotObj {tsCheck fuel state schema inst}
    (hno : ∀ l, inst ≠ JsonValue.obj l) :
    discDispatch tsCheck fuel state schema inst =
      popWrap (pushError (pushSchemaToken state "discriminator")) := by
  rw [discDispatch.eq_def]
  cases inst with
  | obj l => exact absurd rfl (hno l)
  | null => rfl
  | bool b => rfl
  | num q => rfl
  | str s => rfl
  | arr l => rfl

theorem discTagNotStr {tsCheck fuel state schema instFields dv}
    (h : getField instFields (discriminatorOf schema) = some dv)
    (hns : ∀ s, dv ≠ JsonValue.str s) :
    discDispatch tsCheck fuel state schema (JsonValue.obj instFields) =
      popWrapInstSchema (pushError (pushInstanceToken
        (pushSchemaToken state "discriminator") (discriminatorOf schema))) := by
  rw [discDispatch.eq_def]
  simp only [h]

/-- The `properties` stage of the Properties-form branch, as a standalone
map for the general branch equation. -/
def propsStage (tsCheck : String → Bool) (fuel : Nat) (state : ValidationState)
    (schema : JsonValue) (instFields : List (String × JsonValue)) :
    Except Halt ValidationState :=
  match getField (fieldsOf schema) "properties" with
  | some (JsonValue.obj props) =>
      popWrap (validateProps tsCheck fuel (pushSchemaToken state "properties") props instFields)
  | _ => Except.ok state

/-- The `optionalProperties` stage. -/
def optsStage (tsCheck : String → Bool) (fuel : Nat) (state : ValidationState)
    (schema : JsonValue) (instFields : List (String × JsonValue)) :
    Except Halt ValidationState :=
  match getField (fieldsOf schema) "optionalProperties" with
  | some (JsonValue.obj opts) =>
      popWrap (validateOptProps tsCheck fuel (pushSchemaToken state "optionalProperties") opts instFields)
  | _ => Except.ok state

theorem propsStage_eq (tsCheck : String → Bool) (fuel : Nat) (state : ValidationState)
    (schema : JsonValue) (instFields : List (String × JsonValue)) :
    (match hprops : getField (fieldsOf schema) "properties" with
     | some (JsonValue.obj props) =>
        popWrap (validateProps tsCheck fuel (pushSchemaToken state "properties") props instFields)
     | _ => Except.ok state) = propsStage tsCheck fuel state schema instFields := by
  simp only [propsStage]
  split
  · next props hp => simp only [hp]
  · next hne =>
      cases hg : getField (fieldsOf schema) "properties" with
      | none => rfl
      | some dv =>
          cases dv with
          | obj props => exact (hne props hg).elim
          | null => rfl
          | bool b => rfl
          | num q => rfl
          | str s => rfl
          | arr l => rfl

theorem optsStage_eq (tsCheck : String → Bool) (fuel : Nat) (state : ValidationState)
    (schema : JsonValue) (instFields : List (String × JsonValue)) :
    (match hopts : getField (fieldsOf schema) "optionalProperties" with
     | some (JsonValue.obj opts) =>
        popWrap (validateOptProps tsCheck fuel (pushSchemaToken state "optionalProperties") opts instFields)
     | _ => Except.ok state) = optsStage tsCheck fuel state schema instFields := by
  simp only [optsStage]
  split
  · next opts ho => simp only [ho]
  · next hne =>
      cases hg : getField (fieldsOf schema) "optionalProperties" with
      | none => rfl
      | some dv =>
          cases dv with
          | obj opts => exact (hne opts hg).elim
          | null => rfl
          | bool b => rfl
          | num q => rfl
          | str s => rfl
          | arr l => rfl

theorem propsDispatchObj {tsCheck fuel state schema instFields parentTag} :
    propsDispatch tsCheck fuel state schema (JsonValue.obj instFields) parentTag =
      (match propsStage tsCheck fuel state schema instFields with
       | Except.error h => Except.error h
       | Except.ok stA =>
          (match optsStage tsCheck fuel stA schema instFields with
           | Except.error h => Except.error h
           | Except.ok stB =>
              if additionalOf schema then Except.ok stB
              else checkAdditional (propsOf schema) (optsOf schema) parentTag instFields stB)) := by
  rw [propsDispatch.eq_def]
  simp only [propsStage_eq, optsStage_eq]

theorem propsDispatchNotObj {tsCheck fuel state schema inst parentTag}
    (hno : ∀ l, inst ≠ JsonValue.obj l) :
    propsDispatch tsCheck fuel state schema inst parentTag =
      popWrap (pushError (pushSchemaToken state
        (if keyPresent (fieldsOf schema) "properties" then "properties"
         else "optionalProperties"))) := by
  rw [propsDispatch.eq_def]
  cases inst with
  | obj l => exact absurd rfl (hno l)
  | null => rfl
  | bool b => rfl
  | num q => rfl
  | str s => rfl
  | arr l => rfl

theorem validateElementsNil {tsCheck fuel state elemSchema idx} :
    validateElements tsCheck fuel state elemSchema [] idx = Except.ok state := by
  rw [validateElements.eq_def]

theorem validateElementsCons {tsCheck fuel state elemSchema e rest idx} :
    validateElements tsCheck fuel state elemSchema (e :: rest) idx =
      (match validateWithState tsCheck fuel (pushInstanceToken state (toString idx))
          elemSchema e none with
       | Except.ok st2 =>
          validateElements tsCheck fuel (popInstanceToken st2) elemSchema rest (idx + 1)
       | Except.error h => Except.error h) := by
  rw [validateElements.eq_def]

theorem validatePropsConsPresent {tsCheck : String → Bool} {fuel : Nat}
    {state : ValidationState} {name : String} {subSchema v : JsonValue}
    {rest instFields : List (String × JsonValue)}
    (h : getField instFields name = some v) :
    validateProps tsCheck fuel state ((name, subSchema) :: rest) instFields =
      (match (match validateWithState tsCheck fuel
              (pushInstanceToken (pushSchemaToken state name) name) subSchema v none with
         | Except.ok st3 => Except.ok (popInstanceToken st3)
         | Except.error h => Except.error h) with
       | Except.ok st4 => validateProps tsCheck fuel (popSchemaToken st4) rest instFields
       | Except.error h => Except.error h) := by
  rw [validateProps.eq_def]
  simp only [h]

theorem validatePropsConsAbsent {tsCheck : String → Bool} {fuel : Nat}
    {state : ValidationState} {name : String} {subSchema : JsonValue}
    {rest instFields : List (String × JsonValue)}
    (h : getField instFields name = none) :
    validateProps tsCheck fuel state ((name, subSchema) :: rest) instFields =
      (match pushError (pushSchemaToken state name) with
       | Except.ok st4 => validateProps tsCheck fuel (popSchemaToken st4) rest instFields
       | Except.error h => Except.error h) := by
  rw [validateProps.eq_def]
  simp only [h]

theorem validateOptPropsNil {tsCheck fuel state instFields} :
    validateOptProps tsCheck fuel state [] instFields = Except.ok state := by
  rw [validateOptProps.eq_def]

theorem validateOptPropsConsPresent {tsCheck : String → Bool} {fuel : Nat}
    {state : ValidationState} {name : String} {subSchema v : JsonValue}
    {rest instFields : List (String × JsonValue)}
    (h : getField instFields name = some v) :
    validateOptProps tsCheck fuel state ((name, subSchema) :: rest) instFields =
      (match (match validateWithState tsCheck fuel
              (pushInstanceToken (pushSchemaToken state name) name) subSchema v none with
         | Except.ok st3 => Except.ok (popInstanceToken st3)
         | Except.error h => Except.error h) with
       | Except.ok st4 => validateOptProps tsCheck fuel (popSchemaToken st4) rest instFields
       | Except.error h => Except.error h) := by
  rw [validateOptProps.eq_def]
  simp only [h]

theorem validateOptPropsConsAbsent {tsCheck : String → Bool} {fuel : Nat}
    {state : ValidationState} {name : String} {subSchema : JsonValue}
    {rest instFields : List (String × JsonValue)}
    (h : getField instFields name = none) :
    validateOptProps tsCheck fuel state ((name, subSchema) :: rest) instFields =
      validateOptProps tsCheck fuel (popSchemaToken (pushSchemaToken state name))
        rest instFields := by
  rw [validateOptProps.eq_def]
  simp only [h]

theorem validateValuesNil {tsCheck fuel state valSchema} :
    validateValues tsCheck fuel state valSchema [] = Except.ok state := by
  rw [validateValues.eq_def]

theorem validateValuesCons {tsCheck fuel state valSchema name v rest} :
    validateValues tsCheck fuel state valSchema ((name, v) :: rest) =
      (match validateWithState tsCheck fuel (pushInstanceToken state name)
          valSchema v none with
       | Except.ok st2 => validateValues tsCheck fuel (popInstanceToken st2) valSchema rest
       | Except.error h => Except.error h) := by
  rw [validateValues.eq_def]

/-! ## Depth safety: with `maxDepth = 0` the engine never raises the
depth condition, and normal returns preserve the frame count and the
configuration. -/

/-- The result `r` of an engine call from state `st` raises no depth
condition, and on normal return preserves `st`'s configuration and its
count of ref frames. -/
def DepthSafe (st : ValidationState) (r : Except Halt ValidationState) : Prop :=
  (∀ u, r ≠ Except.error (Halt.depth u)) ∧
  (∀ t, r = Except.ok t →
    t.config = st.config ∧ t.schemaTokens.length = st.schemaTokens.length)

theorem bool_of_not_eq_true {b : Bool} (h : ¬ b = true) : b = false := by
  cases b
  · rfl
  · exact absurd rfl h

theorem pushSchemaToken_config (s : ValidationState) (t : String) :
    (pushSchemaToken s t).config = s.config := rfl

theorem pushSchemaToken_len (s : ValidationState) (t : String) :
    (pushSchemaToken s t).schemaTokens.length = s.schemaTokens.length := by
  simp only [pushSchemaToken]
  cases s.schemaTokens <;> rfl

theorem popSchemaToken_config (s : ValidationState) :
    (popSchemaToken s).config = s.config := rfl

theorem popSchemaToken_len (s : ValidationState) :
    (popSchemaToken s).schemaTokens.length = s.schemaTokens.length := by
  simp only [popSchemaToken]
  cases s.schemaTokens <;> rfl

theorem pushInstanceToken_fields (s : ValidationState) (t : String) :
    (pushInstanceToken s t).config = s.config ∧
    (pushInstanceToken s t).schemaTokens = s.schemaTokens := ⟨rfl, rfl⟩

theorem popInstanceToken_fields (s : ValidationState) :
    (popInstanceToken s).config = s.config ∧
    (popInstanceToken s).schemaTokens = s.schemaTokens := ⟨rfl, rfl⟩

theorem pushFrame_len (s : ValidationState) (fr : List String) :
    (pushFrame s fr).schemaTokens.length = s.schemaTokens.length + 1 := rfl

theorem popFrame_len (s : ValidationState) :
    (popFrame s).schemaTokens.length = s.schemaTokens.length - 1 := by
  simp only [popFrame]
  cases s.schemaTokens <;> simp

theorem pushError_shape (st : ValidationState) :
    (∀ u, pushError st ≠ Except.error (Halt.depth u)) ∧
    (∀ t, pushError st = Except.ok t →
      t.config = st.config ∧ t.schemaTokens = st.schemaTokens) := by
  constructor
  · intro u
    simp only [pushError]
    split
    · simp
    · simp
  · intro t h
    simp only [pushError] at h
    split at h
    · cases h
    · cases h
      exact ⟨rfl, rfl⟩

theorem depthSafe_pushError (st : ValidationState) : DepthSafe st (pushError st) := by
  unfold DepthSafe
  refine ⟨(pushError_shape st).1, fun t h => ?_⟩
  obtain ⟨hc, hs⟩ := (pushError_shape st).2 t h
  exact ⟨hc, by rw [hs]⟩

theorem depthSafe_ok (st : ValidationState) : DepthSafe st (Except.ok st) := by
  unfold DepthSafe
  refine ⟨fun u h => ?_, fun t h => ?_⟩
  · cases h
  · cases h
    exact ⟨rfl, rfl⟩

theorem depthSafe_mono {st st' : ValidationState} {r}
    (hc : st'.config = st.config)
    (hl : st'.schemaTokens.length = st.schemaTokens.length)
    (h : DepthSafe st' r) : DepthSafe st r := by
  unfold DepthSafe
  refine ⟨h.1, fun t ht => ?_⟩
  obtain ⟨h1, h2⟩ := h.2 t ht
  exact ⟨h1.trans hc, h2.trans hl⟩

theorem depthSafe_popWrap {st : ValidationState} {r}
    (h : DepthSafe st r) : DepthSafe st (popWrap r) := by
  unfold DepthSafe
  refine ⟨?_, ?_⟩
  · intro u
    simp only [popWrap]
    split
    · simp
    · next he =>
        intro hcon
        injection hcon with hcon2
        exact h.1 u (by rw [hcon2])
  · intro t ht
    simp only [popWrap] at ht
    split at ht
    · next st1 =>
        cases ht
        obtain ⟨hc, hl⟩ := h.2 st1 rfl
        exact ⟨hc, (popSchemaToken_len st1).trans hl⟩
    · next he => cases ht

theorem depthSafe_popWrapInstSchema {st : ValidationState} {r}
    (h : DepthSafe st r) : DepthSafe st (popWrapInstSchema r) := by
  unfold DepthSafe
  refine ⟨?_, ?_⟩
  · intro u
    simp only [popWrapInstSchema]
    split
    · simp
    · next he =>
        intro hcon
        injection hcon with hcon2
        exact h.1 u (by rw [hcon2])
  · intro t ht
    simp only [popWrapInstSchema] at ht
    split at ht
    · next st1 =>
        cases ht
        obtain ⟨hc, hl⟩ := h.2 st1 rfl
        refine ⟨hc, ?_⟩
        rw [popSchemaToken_len, (popInstanceToken_fields st1).2]
        exact hl
    · next he => cases ht

theorem depthSafe_match2 {st : ValidationState}
    {g : ValidationState → Except Halt ValidationState} :
    ∀ {r : Except Halt ValidationState},
    DepthSafe st r →
    (∀ t, r = Except.ok t → DepthSafe st (g t)) →
    DepthSafe st (match r with
      | Except.ok t => g t
      | Except.error e => Except.error e) := by
  intro r h hg
  cases r with
  | ok t => exact hg t rfl
  | error e =>
      unfold DepthSafe
      exact ⟨h.1, fun t ht => by cases ht⟩

theorem depthSafe_validateInt (st : ValidationState) (inst : JsonValue) (lo hi : Int) :
    DepthSafe st (validateInt st inst lo hi) := by
  cases inst <;> simp only [validateInt] <;>
  first
    | exact depthSafe_pushError st
    | (split <;> first | exact depthSafe_ok st | exact depthSafe_pushError st)

theorem depthSafe_typeSwitch (ts : String → Bool) (st : ValidationState)
    (t : String) (inst : JsonValue) : DepthSafe st (typeSwitch ts st t inst) := by
  unfold typeSwitch
  split <;>
  first
    | exact depthSafe_ok st
    | apply depthSafe_validateInt
    | (cases inst <;> simp only [] <;>
       first
         | exact depthSafe_ok st
         | exact depthSafe_pushError st
         | (split <;> first | exact depthSafe_ok st | exact depthSafe_pushError st))

theorem depthSafe_enumCheck (st : ValidationState) (schema inst : JsonValue) :
    DepthSafe st (enumCheck st schema inst) := by
  cases inst <;> simp only [enumCheck] <;>
  first
    | exact depthSafe_pushError st
    | (split <;> first | exact depthSafe_ok st | exact depthSafe_pushError st)

theorem depthSafe_checkAdditional :
    ∀ (instFields props opts : List (String × JsonValue)) (pt : Option String)
      (st : ValidationState),
    DepthSafe st (checkAdditional props opts pt instFields st) := by
  intro instFields
  induction instFields with
  | nil =>
      intro props opts pt st
      rw [checkAdditional]
      exact depthSafe_ok st
  | cons kv rest ih =>
      intro props opts pt st
      obtain ⟨name, v⟩ := kv
      rw [checkAdditional]
      split
      · cases hp : pushError (pushInstanceToken st name) with
        | ok st2 =>
            obtain ⟨hc, hs⟩ := (pushError_shape _).2 st2 hp
            refine depthSafe_mono ?_ ?_ (ih props opts pt (popInstanceToken st2))
            · rw [(popInstanceToken_fields st2).1, hc]
              rfl
            · rw [(popInstanceToken_fields st2).2, hs]
              rfl
        | error e =>
            unfold DepthSafe
            refine ⟨fun u hcon => ?_, fun t ht => by cases ht⟩
            injection hcon with h2
            subst h2
            exact (pushError_shape _).1 u hp
      · exact ih props opts pt st

theorem depthSafe_error_ne {st : ValidationState} {e : Halt}
    (h : ∀ u, e ≠ Halt.depth u) : DepthSafe st (Except.error e) := by
  unfold DepthSafe
  refine ⟨fun u hcon => ?_, fun t ht => by cases ht⟩
  injection hcon with h2
  exact h u h2

theorem depthSafe_popFrameWrap {st : ValidationState} {fr : List String} {r}
    (h : DepthSafe (pushFrame st fr) r) : DepthSafe st (popFrameWrap r) := by
  unfold DepthSafe
  refine ⟨?_, ?_⟩
  · intro u
    simp only [popFrameWrap]
    split
    · simp
    · next he =>
        intro hcon
        injection hcon with hcon2
        exact h.1 u (by rw [hcon2])
  · intro t ht
    simp only [popFrameWrap] at ht
    split at ht
    · next st1 =>
        cases ht
        obtain ⟨hc, hl⟩ := h.2 st1 rfl
        rw [pushFrame_len] at hl
        refine ⟨hc, ?_⟩
        rw [popFrame_len, hl]
        omega
    · next he => cases ht

theorem depthSafe_propsStage {ts : String → Bool} {fuel : Nat}
    {state : ValidationState} {schema : JsonValue}
    {instFields : List (String × JsonValue)}
    (ih : ∀ props, getField (fieldsOf schema) "properties" = some (JsonValue.obj props) →
      DepthSafe (pushSchemaToken state "properties")
        (validateProps ts fuel (pushSchemaToken state "properties") props instFields)) :
    DepthSafe state (propsStage ts fuel state schema instFields) := by
  unfold propsStage
  split
  · next props hp =>
      exact depthSafe_popWrap (depthSafe_mono (pushSchemaToken_config _ _)
        (pushSchemaToken_len _ _) (ih props hp))
  · exact depthSafe_ok state

theorem depthSafe_optsStage {ts : String → Bool} {fuel : Nat}
    {state : ValidationState} {schema : JsonValue}
    {instFields : List (String × JsonValue)}
    (ih : ∀ opts, getField (fieldsOf schema) "optionalProperties" = some (JsonValue.obj opts) →
      DepthSafe (pushSchemaToken state "optionalProperties")
        (validateOptProps ts fuel (pushSchemaToken state "optionalProperties") opts instFields)) :
    DepthSafe state (optsStage ts fuel state schema instFields) := by
  unfold optsStage
  split
  · next opts ho =>
      exact depthSafe_popWrap (depthSafe_mono (pushSchemaToken_config _ _)
        (pushSchemaToken_len _ _) (ih opts ho))
  · exact depthSafe_ok state

theorem vws_d0 (tsCheck : String → Bool) :
    ∀ (fuel : Nat) (state : ValidationState) (schema inst : JsonValue)
      (parentTag : Option String),
      state.config.maxDepth = 0 → 1 ≤ state.schemaTokens.length →
      DepthSafe state (validateWithState tsCheck fuel state schema inst parentTag) := by
  apply validateWithState.induct tsCheck
    (fun fuel state schema inst parentTag =>
      state.config.maxDepth = 0 → 1 ≤ state.schemaTokens.length →
      DepthSafe state (validateWithState tsCheck fuel state schema inst parentTag))
    (fun fuel state schema inst =>
      state.config.maxDepth = 0 → 1 ≤ state.schemaTokens.length →
      DepthSafe state (discDispatch tsCheck fuel state schema inst))
    (fun fuel state schema inst =>
      state.config.maxDepth = 0 → 1 ≤ state.schemaTokens.length →
      DepthSafe state (valuesDispatch tsCheck fuel state schema inst))
    (fun fuel state valSchema instEntries =>
      state.config.maxDepth = 0 → 1 ≤ state.schemaTokens.length →
      DepthSafe state (validateValues tsCheck fuel state valSchema instEntries))
    (fun fuel state schema inst parentTag =>
      state.config.maxDepth = 0 → 1 ≤ state.schemaTokens.length →
      DepthSafe state (propsDispatch tsCheck fuel state schema inst parentTag))
    (fun fuel state entries instFields =>
      state.config.maxDepth = 0 → 1 ≤ state.schemaTokens.length →
      DepthSafe state (validateOptProps tsCheck fuel state entries instFields))
    (fun fuel state entries instFields =>
      state.config.maxDepth = 0 → 1 ≤ state.schemaTokens.length →
      DepthSafe state (validateProps tsCheck fuel state entries instFields))
    (fun fuel state schema inst =>
      state.config.maxDepth = 0 → 1 ≤ state.schemaTokens.length →
      DepthSafe state (elementsDispatch tsCheck fuel state schema inst))
    (fun fuel state elemSchema elems idx =>
      state.config.maxDepth = 0 → 1 ≤ state.schemaTokens.length →
      DepthSafe state (validateElements tsCheck fuel state elemSchema elems idx))

  case case1 =>
    intro fuel state schema inst parentTag h1 hd0 hlen
    rw [vwsNullable h1]
    exact depthSafe_ok state
  case case2 =>
    intro fuel state schema inst parentTag h1 h2 h3 hd0 hlen
    have hq : state.schemaTokens.length = state.config.maxDepth := beq_iff_eq.mp h3
    rw [hd0] at hq
    exact absurd hq (by omega)
  case case3 =>
    intro state schema inst parentTag h1 h2 h3 hd0 hlen
    rw [vwsRefZero (bool_of_not_eq_true h1) h2 (bool_of_not_eq_true h3)]
    exact depthSafe_error_ne (fun u hcon => by cases hcon)
  case case4 =>
    intro state schema inst parentTag h1 h2 h3 fuel' ih hd0 hlen
    rw [vwsRefStep (bool_of_not_eq_true h1) h2 (bool_of_not_eq_true h3)]
    refine depthSafe_popFrameWrap (ih hd0 ?_)
    rw [pushFrame_len]
    omega
  case case5 =>
    intro fuel state schema inst parentTag h1 h2 h3 hd0 hlen
    rw [vwsType (bool_of_not_eq_true h1) (bool_of_not_eq_true h2) h3]
    exact depthSafe_popWrap (depthSafe_mono (pushSchemaToken_config _ _)
      (pushSchemaToken_len _ _) (depthSafe_typeSwitch _ _ _ _))
  case case6 =>
    intro fuel state schema inst parentTag h1 h2 h3 h4 hd0 hlen
    rw [vwsEnum (bool_of_not_eq_true h1) (bool_of_not_eq_true h2) (bool_of_not_eq_true h3) h4]
    exact depthSafe_popWrap (depthSafe_mono (pushSchemaToken_config _ _)
      (pushSchemaToken_len _ _) (depthSafe_enumCheck _ _ _))
  case case7 =>
    intro fuel state schema inst parentTag h1 h2 h3 h4 h5 ih hd0 hlen
    rw [vwsElements (bool_of_not_eq_true h1) (bool_of_not_eq_true h2)
      (bool_of_not_eq_true h3) (bool_of_not_eq_true h4) h5]
    exact ih hd0 hlen
  case case8 =>
    intro fuel state schema inst parentTag h1 h2 h3 h4 h5 h6 ih hd0 hlen
    rw [vwsProps (bool_of_not_eq_true h1) (bool_of_not_eq_true h2)
      (bool_of_not_eq_true h3) (bool_of_not_eq_true h4) (bool_of_not_eq_true h5) h6]
    exact ih hd0 hlen
  case case9 =>
    intro fuel state schema inst parentTag h1 h2 h3 h4 h5 h6 h7 ih hd0 hlen
    rw [vwsValues (bool_of_not_eq_true h1) (bool_of_not_eq_true h2)
      (bool_of_not_eq_true h3) (bool_of_not_eq_true h4) (bool_of_not_eq_true h5)
      (bool_of_not_eq_true h6) h7]
    exact ih hd0 hlen
  case case10 =>
    intro fuel state schema inst parentTag h1 h2 h3 h4 h5 h6 h7 h8 ih hd0 hlen
    rw [vwsDisc (bool_of_not_eq_true h1) (bool_of_not_eq_true h2)
      (bool_of_not_eq_true h3) (bool_of_not_eq_true h4) (bool_of_not_eq_true h5)
      (bool_of_not_eq_true h6) (bool_of_not_eq_true h7) h8]
    exact ih hd0 hlen
  case case11 =>
    intro fuel state schema inst parentTag h1 h2 h3 h4 h5 h6 h7 h8 hd0 hlen
    rw [vwsEmpty (bool_of_not_eq_true h1) (bool_of_not_eq_true h2)
      (bool_of_not_eq_true h3) (bool_of_not_eq_true h4) (bool_of_not_eq_true h5)
      (bool_of_not_eq_true h6) (bool_of_not_eq_true h7) (bool_of_not_eq_true h8)]
    exact depthSafe_ok state
  case case12 =>
    intro fuel state schema fields tag htag w hmap ih hd0 hlen
    rw [discKnownTag htag hmap]
    refine depthSafe_popWrap (depthSafe_popWrap (depthSafe_mono ?_ ?_ (ih hd0 ?_)))
    · rfl
    · rw [pushSchemaToken_len, pushSchemaToken_len]
    · rw [pushSchemaToken_len, pushSchemaToken_len]
      exact hlen
  case case13 =>
    intro fuel state schema fields tag htag hmap hd0 hlen
    rw [discBadTag htag hmap]
    refine depthSafe_popWrapInstSchema (depthSafe_mono ?_ ?_ (depthSafe_pushError _))
    · rfl
    · rw [(pushInstanceToken_fields _ _).2, pushSchemaToken_len]
  case case14 =>
    intro fuel state schema fields val hns htag hd0 hlen
    rw [discTagNotStr htag hns]
    refine depthSafe_popWrapInstSchema (depthSafe_mono ?_ ?_ (depthSafe_pushError _))
    · rfl
    · rw [(pushInstanceToken_fields _ _).2, pushSchemaToken_len]
  case case15 =>
    intro fuel state schema fields htag hd0 hlen
    rw [discNoField htag]
    exact depthSafe_popWrap (depthSafe_mono (pushSchemaToken_config _ _)
      (pushSchemaToken_len _ _) (depthSafe_pushError _))
  case case16 =>
    intro fuel state schema inst hno hd0 hlen
    rw [discNotObj (fun l hcon => hno l hcon)]
    exact depthSafe_popWrap (depthSafe_mono (pushSchemaToken_config _ _)
      (pushSchemaToken_len _ _) (depthSafe_pushError _))
  case case17 =>
    intro fuel state schema inst w hv ih hd0 hlen
    cases inst with
    | obj instFields =>
        rw [valuesDispatchObj hv]
        refine depthSafe_popWrap (depthSafe_mono (pushSchemaToken_config _ _)
          (pushSchemaToken_len _ _) (ih instFields hd0 ?_))
        rw [pushSchemaToken_len]
        exact hlen
    | null =>
        rw [valuesDispatchNotObj hv (fun l hcon => by cases hcon)]
        exact depthSafe_popWrap (depthSafe_mono (pushSchemaToken_config _ _)
          (pushSchemaToken_len _ _) (depthSafe_pushError _))
    | bool b =>
        rw [valuesDispatchNotObj hv (fun l hcon => by cases hcon)]
        exact depthSafe_popWrap (depthSafe_mono (pushSchemaToken_config _ _)
          (pushSchemaToken_len _ _) (depthSafe_pushError _))
    | num q =>
        rw [valuesDispatchNotObj hv (fun l hcon => by cases hcon)]
        exact depthSafe_popWrap (depthSafe_mono (pushSchemaToken_config _ _)
          (pushSchemaToken_len _ _) (depthSafe_pushError _))
    | str s =>
        rw [valuesDispatchNotObj hv (fun l hcon => by cases hcon)]
        exact depthSafe_popWrap (depthSafe_mono (pushSchemaToken_config _ _)
          (pushSchemaToken_len _ _) (depthSafe_pushError _))
    | arr l =>
        rw [valuesDispatchNotObj hv (fun l hcon => by cases hcon)]
        exact depthSafe_popWrap (depthSafe_mono (pushSchemaToken_config _ _)
          (pushSchemaToken_len _ _) (depthSafe_pushError _))
  case case18 =>
    intro fuel state schema inst hv hd0 hlen
    rw [valuesDispatchNone hv]
    exact depthSafe_ok state
  case case19 =>
    intro fuel state valSchema hd0 hlen
    rw [validateValuesNil]
    exact depthSafe_ok state
  case case20 =>
    intro fuel state valSchema k v rest st2 hok ih1 ih2 hd0 hlen
    have hst2 := (ih1 hd0 hlen).2 st2 hok
    rw [validateValuesCons, hok]
    refine depthSafe_mono ?_ ?_ (ih2 ?_ ?_)
    · rw [(popInstanceToken_fields st2).1, hst2.1]
      rfl
    · rw [(popInstanceToken_fields st2).2]
      exact hst2.2
    · rw [(popInstanceToken_fields st2).1, hst2.1]
      exact hd0
    · rw [(popInstanceToken_fields st2).2, hst2.2]
      exact hlen
  case case21 =>
    intro fuel state valSchema k v rest h herr ih1 hd0 hlen
    rw [validateValuesCons, herr]
    exact depthSafe_error_ne (fun u hcon => (ih1 hd0 hlen).1 u (by rw [herr, hcon]))
  case case22 =>
    intro fuel state schema parentTag fields h hperr ih hd0 hlen
    rw [propsStage_eq] at hperr
    rw [propsDispatchObj, hperr]
    refine depthSafe_error_ne (fun u hcon => ?_)
    have hps := depthSafe_propsStage
      (fun props hp => ih props hp hd0 (by rw [pushSchemaToken_len]; exact hlen))
    exact hps.1 u (by rw [hperr, hcon])
  case case23 =>
    intro fuel state schema parentTag fields stB hpok h hoerr ihp iho hd0 hlen
    rw [propsStage_eq] at hpok
    rw [optsStage_eq] at hoerr
    have hps := depthSafe_propsStage
      (fun props hp => ihp props hp hd0 (by rw [pushSchemaToken_len]; exact hlen))
    have hstB := hps.2 stB hpok
    have hos := depthSafe_optsStage
      (fun opts ho => iho opts ho (by rw [pushSchemaToken_config, hstB.1]; exact hd0)
        (by rw [pushSchemaToken_len, hstB.2]; exact hlen))
    rw [propsDispatchObj]
    simp only [hpok]
    simp only [hoerr]
    exact depthSafe_error_ne (fun u hcon => hos.1 u (by rw [hoerr, hcon]))
  case case24 =>
    intro fuel state schema parentTag fields stB hpok stB1 hook hadd ihp iho hd0 hlen
    rw [propsStage_eq] at hpok
    rw [optsStage_eq] at hook
    have hps := depthSafe_propsStage
      (fun props hp => ihp props hp hd0 (by rw [pushSchemaToken_len]; exact hlen))
    have hstB := hps.2 stB hpok
    have hos := depthSafe_optsStage
      (fun opts ho => iho opts ho (by rw [pushSchemaToken_config, hstB.1]; exact hd0)
        (by rw [pushSchemaToken_len, hstB.2]; exact hlen))
    have hstB1 := hos.2 stB1 hook
    rw [propsDispatchObj]
    simp only [hpok]
    simp only [hook]
    rw [if_pos hadd]
    unfold DepthSafe
    refine ⟨fun u hcon => ?_, fun t ht => ?_⟩
    · cases hcon
    · cases ht
      exact ⟨hstB1.1.trans hstB.1, hstB1.2.trans hstB.2⟩
  case case25 =>
    intro fuel state schema parentTag fields stB hpok stB1 hook hadd ihp iho hd0 hlen
    rw [propsStage_eq] at hpok
    rw [optsStage_eq] at hook
    have hps := depthSafe_propsStage
      (fun props hp => ihp props hp hd0 (by rw [pushSchemaToken_len]; exact hlen))
    have hstB := hps.2 stB hpok
    have hos := depthSafe_optsStage
      (fun opts ho => iho opts ho (by rw [pushSchemaToken_config, hstB.1]; exact hd0)
        (by rw [pushSchemaToken_len, hstB.2]; exact hlen))
    have hstB1 := hos.2 stB1 hook
    rw [propsDispatchObj]
    simp only [hpok]
    simp only [hook]
    rw [if_neg hadd]
    exact depthSafe_mono (hstB1.1.trans hstB.1) (hstB1.2.trans hstB.2)
      (depthSafe_checkAdditional fields (propsOf schema) (optsOf schema) parentTag stB1)
  case case26 =>
    intro fuel state schema inst parentTag hno hd0 hlen
    rw [propsDispatchNotObj (fun l hcon => hno l hcon)]
    exact depthSafe_popWrap (depthSafe_mono (pushSchemaToken_config _ _)
      (pushSchemaToken_len _ _) (depthSafe_pushError _))

  case case27 =>
    intro fuel state instFields hd0 hlen
    rw [validateOptPropsNil]
    exact depthSafe_ok state
  case case28 =>
    intro fuel state instFields k v rest st2 hok ih1 ih2 hd0 hlen
    have hlen' : 1 ≤ (pushInstanceToken (pushSchemaToken state k) k).schemaTokens.length := by
      rw [(pushInstanceToken_fields _ _).2, pushSchemaToken_len]
      exact hlen
    cases hg : getField instFields k with
    | some v1 =>
        rw [hg] at hok
        simp only [] at hok
        cases hv : validateWithState tsCheck fuel
            (pushInstanceToken (pushSchemaToken state k) k) v v1 none with
        | ok st3 =>
            rw [hv] at hok
            simp only [] at hok
            injection hok with h2
            subst h2
            have h3 := (ih1 v1 hd0 hlen').2 st3 hv
            rw [validateOptPropsConsPresent hg, hv]
            refine depthSafe_mono ?_ ?_ (ih2 ?_ ?_)
            · rw [popSchemaToken_config, (popInstanceToken_fields st3).1, h3.1]
              rfl
            · rw [popSchemaToken_len, (popInstanceToken_fields st3).2, h3.2,
                (pushInstanceToken_fields _ _).2, pushSchemaToken_len]
            · rw [popSchemaToken_config, (popInstanceToken_fields st3).1, h3.1]
              exact hd0
            · rw [popSchemaToken_len, (popInstanceToken_fields st3).2, h3.2,
                (pushInstanceToken_fields _ _).2, pushSchemaToken_len]
              exact hlen
        | error e =>
            rw [hv] at hok
            simp at hok
    | none =>
        rw [hg] at hok
        simp only [] at hok
        injection hok with h2
        subst h2
        rw [validateOptPropsConsAbsent hg]
        refine depthSafe_mono ?_ ?_ (ih2 ?_ ?_)
        · rfl
        · rw [popSchemaToken_len, pushSchemaToken_len]
        · exact hd0
        · rw [popSchemaToken_len, pushSchemaToken_len]
          exact hlen
  case case29 =>
    intro fuel state instFields k v rest h herr ih1 hd0 hlen
    have hlen' : 1 ≤ (pushInstanceToken (pushSchemaToken state k) k).schemaTokens.length := by
      rw [(pushInstanceToken_fields _ _).2, pushSchemaToken_len]
      exact hlen
    cases hg : getField instFields k with
    | some v1 =>
        rw [hg] at herr
        simp only [] at herr
        cases hv : validateWithState tsCheck fuel
            (pushInstanceToken (pushSchemaToken state k) k) v v1 none with
        | ok st3 =>
            rw [hv] at herr
            simp at herr
        | error e =>
            rw [hv] at herr
            simp only [] at herr
            injection herr with h2
            subst h2
            rw [validateOptPropsConsPresent hg, hv]
            exact depthSafe_error_ne (fun u hcon => (ih1 v1 hd0 hlen').1 u (by rw [hv, hcon]))
    | none =>
        rw [hg] at herr
        simp at herr
  case case30 =>
    intro fuel state instFields hd0 hlen
    rw [validatePropsNil]
    exact depthSafe_ok state
  case case31 =>
    intro fuel state instFields k v rest st2 hok ih1 ih2 hd0 hlen
    have hlen' : 1 ≤ (pushInstanceToken (pushSchemaToken state k) k).schemaTokens.length := by
      rw [(pushInstanceToken_fields _ _).2, pushSchemaToken_len]
      exact hlen
    cases hg : getField instFields k with
    | some v1 =>
        rw [hg] at hok
        simp only [] at hok
        cases hv : validateWithState tsCheck fuel
            (pushInstanceToken (pushSchemaToken state k) k) v v1 none with
        | ok st3 =>
            rw [hv] at hok
            simp only [] at hok
            injection hok with h2
            subst h2
            have h3 := (ih1 v1 hd0 hlen').2 st3 hv
            rw [validatePropsConsPresent hg, hv]
            refine depthSafe_mono ?_ ?_ (ih2 ?_ ?_)
            · rw [popSchemaToken_config, (popInstanceToken_fields st3).1, h3.1]
              rfl
            · rw [popSchemaToken_len, (popInstanceToken_fields st3).2, h3.2,
                (pushInstanceToken_fields _ _).2, pushSchemaToken_len]
            · rw [popSchemaToken_config, (popInstanceToken_fields st3).1, h3.1]
              exact hd0
            · rw [popSchemaToken_len, (popInstanceToken_fields st3).2, h3.2,
                (pushInstanceToken_fields _ _).2, pushSchemaToken_len]
              exact hlen
        | error e =>
            rw [hv] at hok
            simp at hok
    | none =>
        rw [hg] at hok
        simp only [] at hok
        have h3 := (pushError_shape (pushSchemaToken state k)).2 st2 hok
        rw [validatePropsConsAbsent hg, hok]
        refine depthSafe_mono ?_ ?_ (ih2 ?_ ?_)
        · rw [popSchemaToken_config, h3.1]
          rfl
        · rw [popSchemaToken_len, h3.2, pushSchemaToken_len]
        · rw [popSchemaToken_config, h3.1]
          exact hd0
        · rw [popSchemaToken_len, h3.2, pushSchemaToken_len]
          exact hlen
  case case32 =>
    intro fuel state instFields k v rest h herr ih1 hd0 hlen
    have hlen' : 1 ≤ (pushInstanceToken (pushSchemaToken state k) k).schemaTokens.length := by
      rw [(pushInstanceToken_fields _ _).2, pushSchemaToken_len]
      exact hlen
    cases hg : getField instFields k with
    | some v1 =>
        rw [hg] at herr
        simp only [] at herr
        cases hv : validateWithState tsCheck fuel
            (pushInstanceToken (pushSchemaToken state k) k) v v1 none with
        | ok st3 =>
            rw [hv] at herr
            simp at herr
        | error e =>
            rw [hv] at herr
            simp only [] at herr
            injection herr with h2
            subst h2
            rw [validatePropsConsPresent hg, hv]
            exact depthSafe_error_ne (fun u hcon => (ih1 v1 hd0 hlen').1 u (by rw [hv, hcon]))
    | none =>
        rw [hg] at herr
        simp only [] at herr
        rw [validatePropsConsAbsent hg, herr]
        exact depthSafe_error_ne (fun u hcon =>
          (pushError_shape (pushSchemaToken state k)).1 u (by rw [herr, hcon]))
  case case33 =>
    intro fuel state schema inst w hv ih hd0 hlen
    cases inst with
    | arr elems =>
        rw [elementsDispatchSome hv]
        refine depthSafe_popWrap (depthSafe_mono (pushSchemaToken_config _ _)
          (pushSchemaToken_len _ _) (ih elems hd0 ?_))
        rw [pushSchemaToken_len]
        exact hlen
    | null =>
        rw [elementsDispatchNotArr hv (fun l hcon => by cases hcon)]
        exact depthSafe_popWrap (depthSafe_mono (pushSchemaToken_config _ _)
          (pushSchemaToken_len _ _) (depthSafe_pushError _))
    | bool b =>
        rw [elementsDispatchNotArr hv (fun l hcon => by cases hcon)]
        exact depthSafe_popWrap (depthSafe_mono (pushSchemaToken_config _ _)
          (pushSchemaToken_len _ _) (depthSafe_pushError _))
    | num q =>
        rw [elementsDispatchNotArr hv (fun l hcon => by cases hcon)]
        exact depthSafe_popWrap (depthSafe_mono (pushSchemaToken_config _ _)
          (pushSchemaToken_len _ _) (depthSafe_pushError _))
    | str s =>
        rw [elementsDispatchNotArr hv (fun l hcon => by cases hcon)]
        exact depthSafe_popWrap (depthSafe_mono (pushSchemaToken_config _ _)
          (pushSchemaToken_len _ _) (depthSafe_pushError _))
    | obj fields =>
        rw [elementsDispatchNotArr hv (fun l hcon => by cases hcon)]
        exact depthSafe_popWrap (depthSafe_mono (pushSchemaToken_config _ _)
          (pushSchemaToken_len _ _) (depthSafe_pushError _))
  case case34 =>
    intro fuel state schema inst hv hd0 hlen
    rw [elementsDispatchNone hv]
    exact depthSafe_ok state
  case case35 =>
    intro fuel state elemSchema idx hd0 hlen
    rw [validateElementsNil]
    exact depthSafe_ok state
  case case36 =>
    intro fuel state elemSchema idx e rest st2 hok ih1 ih2 hd0 hlen
    have hst2 := (ih1 hd0 hlen).2 st2 hok
    rw [validateElementsCons, hok]
    refine depthSafe_mono ?_ ?_ (ih2 ?_ ?_)
    · rw [(popInstanceToken_fields st2).1, hst2.1]
      rfl
    · rw [(popInstanceToken_fields st2).2]
      exact hst2.2
    · rw [(popInstanceToken_fields st2).1, hst2.1]
      exact hd0
    · rw [(popInstanceToken_fields st2).2, hst2.2]
      exact hlen
  case case37 =>
    intro fuel state elemSchema idx e rest h herr ih1 hd0 hlen
    rw [validateElementsCons, herr]
    exact depthSafe_error_ne (fun u hcon => (ih1 hd0 hlen).1 u (by rw [herr, hcon]))

/-! ## Claim C1 — the maxDepth boundary -/

/-- The one-indirection schema `{"definitions": {"x": {}}, "ref": "x"}`:
a single ref indirection whose target is the empty form. -/
def c1Schema : JsonValue :=
  JsonValue.obj [("definitions", JsonValue.obj [("x", JsonValue.obj [])]),
    ("ref", JsonValue.str "x")]

/-- One symbolic run of the one-indirection schema at maxDepth 2: the
first ref is followed (1 open frame, not yet 2), the target is the empty
form, and the frame is popped back. -/
theorem c1Step1 (tsCheck : String → Bool) :
    validateWithState tsCheck 1 ⟨[], [], [[]], c1Schema, ⟨2, 0⟩⟩ c1Schema
        JsonValue.null none =
      Except.ok ⟨[], [], [[]], c1Schema, ⟨2, 0⟩⟩ := by
  have h1 : (nullableOf c1Schema && JsonValue.null == JsonValue.null) = false := by decide
  have h2 : isRefForm c1Schema = true := by decide
  have h3 : ((⟨[], [], [[]], c1Schema, ⟨2, 0⟩⟩ : ValidationState).schemaTokens.length ==
      (⟨[], [], [[]], c1Schema, ⟨2, 0⟩⟩ : ValidationState).config.maxDepth) = false := by
    decide
  rw [show (1 : Nat) = 0 + 1 from rfl, vwsRefStep h1 h2 h3]
  show popFrameWrap (validateWithState tsCheck 0
      (pushFrame ⟨[], [], [[]], c1Schema, ⟨2, 0⟩⟩ ["definitions", "x"])
      (JsonValue.obj []) JsonValue.null none) = _
  have g1 : (nullableOf (JsonValue.obj []) && JsonValue.null == JsonValue.null) = false := by
    decide
  have g2 : isRefForm (JsonValue.obj []) = false := by decide
  have g3 : isTypeForm (JsonValue.obj []) = false := by decide
  have g4 : isEnumForm (JsonValue.obj []) = false := by decide
  have g5 : isElementsForm (JsonValue.obj []) = false := by decide
  have g6 : isPropertiesForm (JsonValue.obj []) = false := by decide
  have g7 : isValuesForm (JsonValue.obj []) = false := by decide
  have g8 : isDiscriminatorForm (JsonValue.obj []) = false := by decide
  rw [vwsEmpty g1 g2 g3 g4 g5 g6 g7 g8]
  rfl

/-- C1 (counterexample): the claim says maxDepth d tolerates up to d ref
indirections.  The one-indirection schema is a valid schema, yet at
maxDepth 1 validating `null` already aborts with the depth failure: the
depth check fires when the count of open ref frames (1 at the root)
equals maxDepth, before the first indirection is followed. -/
theorem c1_counterexample :
    isSchema c1Schema = true ∧ isValidSchema c1Schema c1Schema = true ∧
    validate (fun _ => true) ⟨1, 0⟩ 1 c1Schema JsonValue.null =
      Except.error VFail.depth := by
  refine ⟨?_, ?_, ?_⟩
  · simp only [c1Schema, isSchema, isSchemaFields, isSchemaKeyword, isObjOfSchemas,
      isSchemaEntries, keywordShape, isSchemaSignatureOk, isSchemaKnownKeys, isBoolVal,
      isStrVal, isObjVal, isTypeNameVal, isStrArrVal]
    decide
  · simp [c1Schema, isValidSchema_eq, defsCheck, refCheck, enumCheck2, tailCheck,
      propsCheck, isValidSchemaEntries, isValidMapping, isRefForm, isEnumForm,
      isPropertiesForm, isDiscriminatorForm, getField, fieldsOf, keyPresent, rootDefs,
      objEntriesOf]
  · simp only [validate]
    have h1 : (nullableOf c1Schema && JsonValue.null == JsonValue.null) = false := by decide
    have h2 : isRefForm c1Schema = true := by decide
    have h3 : ((⟨[], [], [[]], c1Schema, ⟨1, 0⟩⟩ : ValidationState).schemaTokens.length ==
        (⟨[], [], [[]], c1Schema, ⟨1, 0⟩⟩ : ValidationState).config.maxDepth) = true := by
      decide
    rw [vwsRefDepth h1 h2 h3]

/-- C1 (amended): with maxDepth 0 `validate` never raises the depth
failure; with maxDepth d > 0 the ref branch aborts with the distinguished
depth failure exactly when the number of open ref frames equals maxDepth,
and otherwise pushes a frame and follows the target.  Since `validate`
starts with one open frame, maxDepth d tolerates d − 1 nested ref
indirections and aborts on the d-th — one fewer than the claim's "up to
d" — as the one-indirection schema shows: depth failure at maxDepth 1,
success at maxDepth 2.  The depth failure aborts the whole call and is
never an entry of a returned error list. -/
theorem c1_max_depth (tsCheck : String → Bool) :
    (∀ me fuel schema inst,
        validate tsCheck ⟨0, me⟩ fuel schema inst ≠ Except.error VFail.depth)
    ∧ (∀ fuel state schema inst parentTag,
        (nullableOf schema && inst == JsonValue.null) = false →
        isRefForm schema = true →
          (state.schemaTokens.length = state.config.maxDepth →
            validateWithState tsCheck fuel state schema inst parentTag =
              Except.error (Halt.depth state))
          ∧ (state.schemaTokens.length ≠ state.config.maxDepth →
              validateWithState tsCheck (fuel + 1) state schema inst parentTag =
                popFrameWrap (validateWithState tsCheck fuel
                  (pushFrame state ["definitions", strFieldOf schema "ref"])
                  (defLookup state.root (strFieldOf schema "ref")) inst none)))
    ∧ validate tsCheck ⟨1, 0⟩ 1 c1Schema JsonValue.null = Except.error VFail.depth
    ∧ validate tsCheck ⟨2, 0⟩ 1 c1Schema JsonValue.null = Except.ok [] := by
  refine ⟨?_, ?_, ?_, ?_⟩
  · intro me fuel schema inst hcon
    have hds := vws_d0 tsCheck fuel ⟨[], [], [[]], schema, ⟨0, me⟩⟩ schema inst none rfl
      (Nat.le_refl 1)
    simp only [validate] at hcon
    cases hr : validateWithState tsCheck fuel ⟨[], [], [[]], schema, ⟨0, me⟩⟩ schema
        inst none with
    | ok s => rw [hr] at hcon; simp at hcon
    | error h =>
        cases h with
        | errs s => rw [hr] at hcon; simp at hcon
        | depth u => exact hds.1 u hr
        | outOfFuel u => rw [hr] at hcon; simp at hcon
  · intro fuel state schema inst parentTag h1 h2
    constructor
    · intro h
      exact vwsRefDepth h1 h2 (by simp [h])
    · intro h
      have h3 : (state.schemaTokens.length == state.config.maxDepth) = false := by
        simp only [beq_eq_false_iff_ne, ne_eq]
        exact h
      exact vwsRefStep h1 h2 h3
  · simp only [validate]
    have h1 : (nullableOf c1Schema && JsonValue.null == JsonValue.null) = false := by decide
    have h2 : isRefForm c1Schema = true := by decide
    have h3 : ((⟨[], [], [[]], c1Schema, ⟨1, 0⟩⟩ : ValidationState).schemaTokens.length ==
        (⟨[], [], [[]], c1Schema, ⟨1, 0⟩⟩ : ValidationState).config.maxDepth) = true := by
      decide
    rw [vwsRefDepth h1 h2 h3]
  · exact validate_of_vws_ok (c1Step1 tsCheck)

/-- C1 (witness): the amended theorem at concrete inputs — the d = 0
clause at the empty schema, the ref-branch depth equation at the
one-frame start state with maxDepth 1, and the maxDepth 2 success. -/
theorem c1_witness :
    validate (fun _ => true) ⟨0, 0⟩ 1 (JsonValue.obj []) (JsonValue.bool true) ≠
        Except.error VFail.depth
    ∧ validateWithState (fun _ => true) 1
        (⟨[], [], [[]], c1Schema, ⟨1, 0⟩⟩ : ValidationState) c1Schema JsonValue.null none =
        Except.error (Halt.depth ⟨[], [], [[]], c1Schema, ⟨1, 0⟩⟩)
    ∧ validate (fun _ => true) ⟨2, 0⟩ 1 c1Schema JsonValue.null = Except.ok [] :=
  ⟨(c1_max_depth (fun _ => true)).1 0 1 (JsonValue.obj []) (JsonValue.bool true),
   ((c1_max_depth (fun _ => true)).2.1 1 ⟨[], [], [[]], c1Schema, ⟨1, 0⟩⟩ c1Schema
      JsonValue.null none (by decide) (by decide)).1 (by decide),
   (c1_max_depth (fun _ => true)).2.2.2⟩

/-! ## Claim C10 — the claim theorem -/

/-- C10: `isSchema` and `isValidSchema` terminate on every finite input:
their structural fuel twins, which spend one unit of fuel per recursive
call, compute the same answer whenever the fuel is at least linear in the
size of the input, so the recursion depth is bounded by the input's size;
and `isValidSchema` accepts (hence terminates on) a schema whose
definitions refer to each other cyclically through `ref`, since it only
looks refs up in the root's definitions and never follows them. -/
theorem c10_termination :
    (∀ v fuel, 2 * sizeOf v ≤ fuel → isSchemaFuel fuel v = some (isSchema v)) ∧
    (∀ schema root fuel, 2 * sizeOf schema + 1 ≤ fuel →
      isValidSchemaFuel fuel schema root = some (isValidSchema schema root)) ∧
    isValidSchema
      (JsonValue.obj [("definitions", JsonValue.obj
        [("a", JsonValue.obj [("ref", JsonValue.str "b")]),
         ("b", JsonValue.obj [("ref", JsonValue.str "a")])]),
        ("ref", JsonValue.str "a")])
      (JsonValue.obj [("definitions", JsonValue.obj
        [("a", JsonValue.obj [("ref", JsonValue.str "b")]),
         ("b", JsonValue.obj [("ref", JsonValue.str "a")])]),
        ("ref", JsonValue.str "a")]) = true :=
  ⟨fun v fuel h => (isSchemaFuel_adequate fuel).1 v h,
   fun schema root fuel h => (isValidSchemaFuel_adequate fuel).1 schema root h,
   by
    simp [isValidSchema_eq, defsCheck, refCheck, enumCheck2, tailCheck, propsCheck,
      isValidSchemaEntries, isValidMapping, isRefForm, isEnumForm, isPropertiesForm,
      isDiscriminatorForm, getField, fieldsOf, keyPresent, rootDefs, objEntriesOf]⟩

/-- C10 (witness): the adequacy parts applied to the empty schema at
concrete fuel. -/
theorem c10_witness :
    isSchemaFuel 8 (JsonValue.obj []) = some (isSchema (JsonValue.obj [])) ∧
    isValidSchemaFuel 9 (JsonValue.obj []) (JsonValue.obj []) =
      some (isValidSchema (JsonValue.obj []) (JsonValue.obj [])) :=
  ⟨c10_termination.1 _ 8 (by decide), c10_termination.2.1 _ _ 9 (by decide)⟩

end Jtd
